import Mathlib

/-!
# Railway scheduling: a shallow embedding of `railway.h` / `railway.cpp`

The C++ classes `Time`, `TrainSchedule`, `Line`, `Platform`, `RailwayStation<T>`
and `RailwaySystem<T>` are embedded as Lean structures.  Conventions:

* `int` is `Int`.  Every arithmetic expression of the source is evaluated on
  fields of constructed `Time` objects (hours in 0..23, minutes in 0..59), far
  from the 32-bit limits, so no wrap-around is modelled.
* A member function that mutates its object and may throw returns an `Outcome`:
  the object as it is after the call, and the exception that escaped (if any).
  This keeps the state visible after a failed call.
* `vector<unique_ptr<X>>` is `List X`; a raw pointer into such a vector, as
  returned by `find_if(...)->get()`, is a position `Fin xs.length`, and
  `nullptr` is `none`.
* Reachable states are those produced by finite sequences of client calls
  (`RailwayStation.calls`, `RailwaySystem.calls`), every exception being caught
  by the caller as in `main.cpp` and the test suite.
-/

namespace Railway

/-! ## Exceptions -/

/-- The two exception classes thrown by the code. `TimeConflictException` derives from
`RailwayException`. -/
inductive ExceptionClass where
  | RailwayException
  | TimeConflictException
deriving DecidableEq, Repr

/-- An exception object: its dynamic class and its `what()` message. -/
structure Exception where
  cls : ExceptionClass
  what : String
deriving DecidableEq, Repr

/-- `throw RailwayException(msg)`. -/
def RailwayException (msg : String) : Exception := ⟨.RailwayException, msg⟩

/-- `throw TimeConflictException(msg)`. -/
def TimeConflictException (msg : String) : Exception := ⟨.TimeConflictException, msg⟩

/-- Result of calling a mutating member function: the object after the call and the
exception that propagated out of it, `none` when the call returned normally. -/
structure Outcome (σ : Type) where
  state : σ
  thrown : Option Exception
deriving Repr

/-! ## Time -/

/-- `class Time { int hours; int minutes; }`. -/
structure Time where
  hours : Int
  minutes : Int
deriving DecidableEq, Repr

/-- `Time::Time(int h, int m)`: stores both fields, throws when one is out of range. -/
def Time.new (h m : Int) : Except Exception Time :=
  if h < 0 ∨ h > 23 ∨ m < 0 ∨ m > 59 then
    .error (RailwayException "Invalid time format")
  else
    .ok ⟨h, m⟩

/-- A `Time` whose fields are in the range the constructor accepts. -/
def Time.valid (t : Time) : Prop :=
  0 ≤ t.hours ∧ t.hours ≤ 23 ∧ 0 ≤ t.minutes ∧ t.minutes ≤ 59

instance (t : Time) : Decidable t.valid := by
  unfold Time.valid; exact inferInstance

/-- `Time::operator<`. -/
def Time.lt (a other : Time) : Bool :=
  decide ((a.hours * 60 + a.minutes) < (other.hours * 60 + other.minutes))

/-- `Time::operator==`. -/
def Time.eq (a other : Time) : Bool :=
  a.hours == other.hours && a.minutes == other.minutes

/-- `abs` of `<cstdlib>` on `int`. -/
def stdAbs (x : Int) : Int := if x < 0 then -x else x

/-- `Time::getDifference`. -/
def Time.getDifference (a other : Time) : Int :=
  stdAbs ((a.hours * 60 + a.minutes) - (other.hours * 60 + other.minutes))

/-- `operator<<(int)` under `setfill('0') << setw(2)`: the decimal rendering, left-padded
with the fill character up to width 2. -/
def putInt02 (n : Int) : String :=
  let s := toString n
  String.mk (List.replicate (2 - s.length) '0') ++ s

/-- `Time::toString`. -/
def Time.toString (t : Time) : String :=
  putInt02 t.hours ++ ":" ++ putInt02 t.minutes

/-! ## TrainSchedule and Line -/

/-- `class TrainSchedule { Time time; bool isStoppingTrain; }`. -/
structure TrainSchedule where
  time : Time
  isStoppingTrain : Bool
deriving DecidableEq, Repr

/-- `class Line { int lineNumber; vector<TrainSchedule> schedules; }`. -/
structure Line where
  lineNumber : Int
  schedules : List TrainSchedule
deriving DecidableEq, Repr

/-- `Line::Line(int num)`: no check on `num`, the schedule starts empty. -/
def Line.new (num : Int) : Line := ⟨num, []⟩

/-- The `for` loop of `Line::canAddTrain` over the remaining entries, with its early
`return false`. -/
def canAddTrainLoop (newTime : Time) (isStoppingTrain : Bool) : List TrainSchedule → Bool
  | [] => true
  | schedule :: rest =>
    let timeDiff := schedule.time.getDifference newTime
    if isStoppingTrain || schedule.isStoppingTrain then
      if timeDiff < 30 then false else canAddTrainLoop newTime isStoppingTrain rest
    else
      if timeDiff < 10 then false else canAddTrainLoop newTime isStoppingTrain rest

/-- `Line::canAddTrain`. -/
def Line.canAddTrain (l : Line) (newTime : Time) (isStoppingTrain : Bool) : Bool :=
  canAddTrainLoop newTime isStoppingTrain l.schedules

/-- `Line::addTrain`. -/
def Line.addTrain (l : Line) (time : Time) (isStoppingTrain : Bool) : Outcome Line :=
  if !l.canAddTrain time isStoppingTrain then
    ⟨l, some (TimeConflictException "Time slot conflicts with existing schedule")⟩
  else
    ⟨{ l with schedules := l.schedules ++ [⟨time, isStoppingTrain⟩] }, none⟩

/-! ## Lookup -/

/-- `std::find_if(v.begin(), v.end(), pred)`: the position of the first element that
satisfies `pred`, `none` for `v.end()`. -/
def find_if {α : Type} (pred : α → Bool) : (v : List α) → Option (Fin v.length)
  | [] => none
  | x :: xs => if pred x then some ⟨0, Nat.succ_pos _⟩ else (find_if pred xs).map Fin.succ

/-! ## Platform -/

/-- `class Platform { int platformNumber; vector<unique_ptr<Line>> lines; }`. -/
structure Platform where
  platformNumber : Int
  lines : List Line
deriving DecidableEq, Repr

/-- `Platform::Platform(int num)`. -/
def Platform.new (num : Int) : Except Exception Platform :=
  if num ≤ 0 then
    .error (RailwayException "Platform number must be positive")
  else
    .ok ⟨num, []⟩

/-- `Platform::findLine`: pointer to the first line with that number, or `nullptr`. -/
def Platform.findLine (p : Platform) (lineNumber : Int) : Option (Fin p.lines.length) :=
  find_if (fun line => line.lineNumber == lineNumber) p.lines

/-- `Platform::addLine`. -/
def Platform.addLine (p : Platform) (lineNumber : Int) : Outcome Platform :=
  if lineNumber ≤ 0 then
    ⟨p, some (RailwayException "Line number must be positive")⟩
  else if (p.findLine lineNumber).isSome then
    ⟨p, some (RailwayException "Line already exists on this platform")⟩
  else
    ⟨{ p with lines := p.lines ++ [Line.new lineNumber] }, none⟩

/-- The `for` loop of `Platform::addLines`: an exception of `addLine` leaves the loop with
the platform as it is at that point. -/
def Platform.addLinesLoop (p : Platform) : List Int → Outcome Platform
  | [] => ⟨p, none⟩
  | lineNum :: rest =>
    match p.addLine lineNum with
    | ⟨p', some e⟩ => ⟨p', some e⟩
    | ⟨p', none⟩ => Platform.addLinesLoop p' rest

/-- `Platform::addLines`. -/
def Platform.addLines (p : Platform) (lineNumbers : List Int) : Outcome Platform :=
  if lineNumbers.isEmpty then
    ⟨p, some (RailwayException "No line numbers provided")⟩
  else
    p.addLinesLoop lineNumbers

/-! ## RailwayStation -/

/-- `template<typename T> class RailwayStation { T id; string name;
vector<unique_ptr<Platform>> platforms; }`. -/
structure RailwayStation (T : Type) where
  id : T
  name : String
  platforms : List Platform
deriving DecidableEq, Repr

/-- `RailwayStation::RailwayStation(T stationId, string stationName)`. -/
def RailwayStation.new {T : Type} (stationId : T) (stationName : String) : RailwayStation T :=
  ⟨stationId, stationName, []⟩

/-- `RailwayStation::findPlatform`. -/
def RailwayStation.findPlatform {T : Type} (st : RailwayStation T) (platformNumber : Int) :
    Option (Fin st.platforms.length) :=
  find_if (fun platform => platform.platformNumber == platformNumber) st.platforms

/-- `RailwayStation::addPlatform`: `make_unique<Platform>(n)` is evaluated, and may throw,
before `push_back`. -/
def RailwayStation.addPlatform {T : Type} (st : RailwayStation T) (platformNumber : Int) :
    Outcome (RailwayStation T) :=
  if (st.findPlatform platformNumber).isSome then
    ⟨st, some (RailwayException "Platform already exists")⟩
  else
    match Platform.new platformNumber with
    | .error e => ⟨st, some e⟩
    | .ok platform => ⟨{ st with platforms := st.platforms ++ [platform] }, none⟩

/-- The `for` loop of `RailwayStation::addPlatforms`. -/
def RailwayStation.addPlatformsLoop {T : Type} (st : RailwayStation T) :
    List Int → Outcome (RailwayStation T)
  | [] => ⟨st, none⟩
  | platformNum :: rest =>
    match st.addPlatform platformNum with
    | ⟨st', some e⟩ => ⟨st', some e⟩
    | ⟨st', none⟩ => RailwayStation.addPlatformsLoop st' rest

/-- `RailwayStation::addPlatforms`. -/
def RailwayStation.addPlatforms {T : Type} (st : RailwayStation T) (platformNumbers : List Int) :
    Outcome (RailwayStation T) :=
  if platformNumbers.isEmpty then
    ⟨st, some (RailwayException "No platform numbers provided")⟩
  else
    st.addPlatformsLoop platformNumbers

/-- `RailwayStation::addTrainSchedule`: the line found through the two pointers is mutated
in place, so the station after the call holds the line as `Line::addTrain` left it. -/
def RailwayStation.addTrainSchedule {T : Type} (st : RailwayStation T)
    (platformNumber lineNumber : Int) (time : Time) (isStoppingTrain : Bool) :
    Outcome (RailwayStation T) :=
  match st.findPlatform platformNumber with
  | none => ⟨st, some (RailwayException "Platform not found")⟩
  | some pi =>
    let platform := st.platforms.get pi
    match platform.findLine lineNumber with
    | none => ⟨st, some (RailwayException "Line not found on this platform")⟩
    | some li =>
      let r := (platform.lines.get li).addTrain time isStoppingTrain
      ⟨{ st with platforms :=
          st.platforms.set pi { platform with lines := platform.lines.set li r.state } },
        r.thrown⟩

/-! ## RailwaySystem -/

/-- `template<typename T> class RailwaySystem { vector<unique_ptr<RailwayStation<T>>>
stations; }`. -/
structure RailwaySystem (T : Type) where
  stations : List (RailwayStation T)
deriving Repr

/-- A default-constructed `RailwaySystem`. -/
def RailwaySystem.new {T : Type} : RailwaySystem T := ⟨[]⟩

/-- `RailwaySystem::findStation`. -/
def RailwaySystem.findStation {T : Type} [DecidableEq T] (sys : RailwaySystem T) (id : T) :
    Option (Fin sys.stations.length) :=
  find_if (fun station => decide (station.id = id)) sys.stations

/-- `RailwaySystem::addStation`. -/
def RailwaySystem.addStation {T : Type} [DecidableEq T] (sys : RailwaySystem T) (id : T)
    (name : String) : Outcome (RailwaySystem T) :=
  if (sys.findStation id).isSome then
    ⟨sys, some (RailwayException "Station ID already exists")⟩
  else
    ⟨{ sys with stations := sys.stations ++ [RailwayStation.new id name] }, none⟩

/-! ## Call sequences -/

/-- A `Line` after a sequence of `addTrain` calls, each failed call caught by the caller
(as the test suite and the menu loop do) and the next call made on the same object. -/
def Line.addTrains (l : Line) : List (Time × Bool) → Line
  | [] => l
  | (time, isStoppingTrain) :: rest =>
    Line.addTrains (l.addTrain time isStoppingTrain).state rest

/-- `Line::Line(int num)` seen as a call that may throw, in the way `Time.new` and
`Platform.new` are: the constructor body is empty and checks nothing, so the call always
returns the object. -/
def Line.construct (num : Int) : Except Exception Line := .ok (Line.new num)

/-- A member call through a pointer obtained from a lookup, as `main.cpp` makes it: on
`nullptr` the caller throws `notFound` and nothing is touched; otherwise the member
function runs on the pointee, which stays in its place in the vector. -/
def callAt {α : Type} (v : List α) (ptr : Option (Fin v.length)) (notFound : Exception)
    (f : α → Outcome α) : Outcome (List α) :=
  match ptr with
  | none => ⟨v, some notFound⟩
  | some i => ⟨v.set i (f (v.get i)).state, (f (v.get i)).thrown⟩

/-- The calls a client makes on a station: its own mutating member functions, and those of
`Platform` through the pointer returned by `findPlatform`. A direct
`findPlatform(p)->findLine(l)->addTrain(t, s)` changes the station exactly as
`addTrainSchedule(p, l, t, s)` does and is not listed separately. -/
inductive StationCall where
  | addPlatform (platformNumber : Int)
  | addPlatforms (platformNumbers : List Int)
  | addLine (platformNumber lineNumber : Int)
  | addLines (platformNumber : Int) (lineNumbers : List Int)
  | addTrainSchedule (platformNumber lineNumber : Int) (time : Time) (isStoppingTrain : Bool)
deriving DecidableEq, Repr

/-- One client call on a station. `addLine` and `addLines` stand for
`station.findPlatform(p)->addLine(n)` and `station.findPlatform(p)->addLines(ns)`, guarded
by the null check of `main.cpp` (`"Platform not found"`). -/
def RailwayStation.call {T : Type} (st : RailwayStation T) :
    StationCall → Outcome (RailwayStation T)
  | .addPlatform platformNumber => st.addPlatform platformNumber
  | .addPlatforms platformNumbers => st.addPlatforms platformNumbers
  | .addLine platformNumber lineNumber =>
    let r := callAt st.platforms (st.findPlatform platformNumber)
      (RailwayException "Platform not found") (fun platform => platform.addLine lineNumber)
    ⟨{ st with platforms := r.state }, r.thrown⟩
  | .addLines platformNumber lineNumbers =>
    let r := callAt st.platforms (st.findPlatform platformNumber)
      (RailwayException "Platform not found") (fun platform => platform.addLines lineNumbers)
    ⟨{ st with platforms := r.state }, r.thrown⟩
  | .addTrainSchedule platformNumber lineNumber time isStoppingTrain =>
    st.addTrainSchedule platformNumber lineNumber time isStoppingTrain

/-- A station after a sequence of client calls, each exception caught by the caller. -/
def RailwayStation.calls {T : Type} (st : RailwayStation T) : List StationCall → RailwayStation T
  | [] => st
  | c :: rest => RailwayStation.calls (st.call c).state rest

/-- The calls a client makes on the system: `addStation`, and a station call through the
pointer returned by `findStation`. -/
inductive SystemCall (T : Type) where
  | addStation (id : T) (name : String)
  | onStation (id : T) (c : StationCall)

/-- One client call on the system. `onStation id c` stands for
`railway.findStation(id)->c`, guarded by the null check of `main.cpp`
(`"Station not found"`). -/
def RailwaySystem.call {T : Type} [DecidableEq T] (sys : RailwaySystem T) :
    SystemCall T → Outcome (RailwaySystem T)
  | .addStation id name => sys.addStation id name
  | .onStation id c =>
    let r := callAt sys.stations (sys.findStation id)
      (RailwayException "Station not found") (fun station => station.call c)
    ⟨⟨r.state⟩, r.thrown⟩

/-- A system after a sequence of client calls, each exception caught by the caller (the
`try`/`catch` of the menu loop). -/
def RailwaySystem.calls {T : Type} [DecidableEq T] (sys : RailwaySystem T) :
    List (SystemCall T) → RailwaySystem T
  | [] => sys
  | c :: rest => RailwaySystem.calls (sys.call c).state rest

/-- The identifier invariant of one platform: a positive platform number, and line numbers
that are positive and pairwise distinct. -/
def Platform.WF (P : Platform) : Prop :=
  0 < P.platformNumber ∧ (P.lines.map (fun L : Line => L.lineNumber)).Nodup ∧
    ∀ L ∈ P.lines, 0 < L.lineNumber

/-- The identifier invariant of one station: pairwise distinct platform numbers, and every
platform satisfies `Platform.WF`. -/
def RailwayStation.WF {T : Type} (st : RailwayStation T) : Prop :=
  (st.platforms.map (fun P : Platform => P.platformNumber)).Nodup ∧
    ∀ P ∈ st.platforms, P.WF

/-- The identifier invariant of the system: pairwise distinct station ids, and every
station satisfies `RailwayStation.WF`. -/
def RailwaySystem.WF {T : Type} (sys : RailwaySystem T) : Prop :=
  (sys.stations.map (fun S : RailwayStation T => S.id)).Nodup ∧
    ∀ S ∈ sys.stations, S.WF

/-- Two schedule entries respect the minimum separation of `Line::canAddTrain`: 30 minutes
of minute-of-day distance when one of them stops, 10 minutes when both are through trains. -/
def Separated (a b : TrainSchedule) : Prop :=
  ((a.isStoppingTrain = true ∨ b.isStoppingTrain = true) →
    30 ≤ |(a.time.hours * 60 + a.time.minutes) - (b.time.hours * 60 + b.time.minutes)|) ∧
  ((a.isStoppingTrain = false ∧ b.isStoppingTrain = false) →
    10 ≤ |(a.time.hours * 60 + a.time.minutes) - (b.time.hours * 60 + b.time.minutes)|)

/-! ## Lemmas on the difference and the conflict loop -/

theorem stdAbs_eq_abs (x : Int) : stdAbs x = |x| := by
  unfold stdAbs
  split
  · rw [abs_of_neg (by assumption)]
  · rw [abs_of_nonneg (by omega)]

theorem getDifference_eq_abs (a b : Time) :
    a.getDifference b = |(a.hours * 60 + a.minutes) - (b.hours * 60 + b.minutes)| := by
  unfold Time.getDifference
  exact stdAbs_eq_abs _

theorem getDifference_comm (a b : Time) : a.getDifference b = b.getDifference a := by
  rw [getDifference_eq_abs, getDifference_eq_abs, abs_sub_comm]

/-- The separation test the loop body applies to one entry, as a proposition. -/
theorem canAddTrainLoop_cons (t : Time) (s : Bool) (e : TrainSchedule) (rest : List TrainSchedule) :
    canAddTrainLoop t s (e :: rest) = true ↔
      (((s = true ∨ e.isStoppingTrain = true) → 30 ≤ e.time.getDifference t) ∧
        ((s = false ∧ e.isStoppingTrain = false) → 10 ≤ e.time.getDifference t)) ∧
      canAddTrainLoop t s rest = true := by
  rw [canAddTrainLoop]
  cases s <;> cases hk : e.isStoppingTrain <;> simp only [Bool.or_false, Bool.or_true,
    Bool.false_eq_true, if_false, if_true] <;> split <;> simp_all

theorem canAddTrainLoop_iff (t : Time) (s : Bool) (es : List TrainSchedule) :
    canAddTrainLoop t s es = true ↔
      ∀ e ∈ es,
        ((s = true ∨ e.isStoppingTrain = true) → 30 ≤ e.time.getDifference t) ∧
        ((s = false ∧ e.isStoppingTrain = false) → 10 ≤ e.time.getDifference t) := by
  induction es with
  | nil => simp [canAddTrainLoop]
  | cons e rest ih =>
    rw [canAddTrainLoop_cons, ih]
    simp only [List.mem_cons, forall_eq_or_imp]

theorem Separated.symm {a b : TrainSchedule} (h : Separated a b) : Separated b a := by
  unfold Separated at *
  rw [abs_sub_comm]
  exact ⟨fun hk => h.1 hk.symm, fun hk => h.2 hk.symm⟩

theorem canAddTrain_iff_forall_separated (l : Line) (t : Time) (s : Bool) :
    l.canAddTrain t s = true ↔ ∀ e ∈ l.schedules, Separated e ⟨t, s⟩ := by
  unfold Line.canAddTrain
  rw [canAddTrainLoop_iff]
  refine forall_congr' fun e => forall_congr' fun _ => ?_
  unfold Separated
  rw [getDifference_eq_abs]
  constructor
  · intro h
    exact ⟨fun hk => h.1 hk.symm, fun hk => h.2 hk.symm⟩
  · intro h
    exact ⟨fun hk => h.1 hk.symm, fun hk => h.2 hk.symm⟩

theorem addTrain_of_canAdd_false (l : Line) (t : Time) (s : Bool)
    (h : l.canAddTrain t s = false) :
    l.addTrain t s =
      ⟨l, some (TimeConflictException "Time slot conflicts with existing schedule")⟩ := by
  simp [Line.addTrain, h]

theorem addTrain_of_canAdd_true (l : Line) (t : Time) (s : Bool)
    (h : l.canAddTrain t s = true) :
    l.addTrain t s = ⟨⟨l.lineNumber, l.schedules ++ [⟨t, s⟩]⟩, none⟩ := by
  simp [Line.addTrain, h]

theorem addTrain_pairwise (l : Line) (t : Time) (s : Bool)
    (h : l.schedules.Pairwise Separated) :
    (l.addTrain t s).state.schedules.Pairwise Separated := by
  cases hc : l.canAddTrain t s with
  | false => rw [addTrain_of_canAdd_false l t s hc]; exact h
  | true =>
    rw [addTrain_of_canAdd_true l t s hc]
    refine List.pairwise_append.mpr ⟨h, List.pairwise_singleton _ _, ?_⟩
    intro a ha b hb
    rw [List.mem_singleton] at hb
    subst hb
    exact (canAddTrain_iff_forall_separated l t s).mp hc a ha

theorem addTrains_pairwise (calls : List (Time × Bool)) :
    ∀ l : Line, l.schedules.Pairwise Separated →
      (l.addTrains calls).schedules.Pairwise Separated := by
  induction calls with
  | nil => intro l h; exact h
  | cons c rest ih =>
    intro l h
    obtain ⟨t, s⟩ := c
    exact ih _ (addTrain_pairwise l t s h)

theorem pairwise_separated_get (es : List TrainSchedule) (h : es.Pairwise Separated)
    (i j : Nat) (a b : TrainSchedule) (ha : es[i]? = some a) (hb : es[j]? = some b)
    (hij : i ≠ j) : Separated a b := by
  obtain ⟨hi, rfl⟩ := List.getElem?_eq_some.mp ha
  obtain ⟨hj, rfl⟩ := List.getElem?_eq_some.mp hb
  rcases Nat.lt_or_gt_of_ne hij with hlt | hgt
  · exact (List.pairwise_iff_getElem.mp h) i j hi hj hlt
  · exact ((List.pairwise_iff_getElem.mp h) j i hj hi hgt).symm

/-! ## Properties of `Time` -/

/-- C7: `Time(h, m)` throws `RailwayException("Invalid time format")` exactly when `h` is
outside 0..23 or `m` is outside 0..59; otherwise it returns the time with `hours = h` and
`minutes = m`, so every constructed `Time` has both fields in range. -/
theorem Time_new_iff_in_range (h m : Int) :
    (Time.new h m = .error (RailwayException "Invalid time format") ↔
      (¬ (0 ≤ h ∧ h ≤ 23) ∨ ¬ (0 ≤ m ∧ m ≤ 59))) ∧
    ((∃ e, Time.new h m = .error e) ↔ (¬ (0 ≤ h ∧ h ≤ 23) ∨ ¬ (0 ≤ m ∧ m ≤ 59))) ∧
    (((0 ≤ h ∧ h ≤ 23) ∧ (0 ≤ m ∧ m ≤ 59)) → Time.new h m = .ok ⟨h, m⟩) ∧
    (∀ t, Time.new h m = .ok t →
      t.hours = h ∧ t.minutes = m ∧
        0 ≤ t.hours ∧ t.hours ≤ 23 ∧ 0 ≤ t.minutes ∧ t.minutes ≤ 59) := by
  unfold Time.new
  by_cases hr : h < 0 ∨ h > 23 ∨ m < 0 ∨ m > 59
  · rw [if_pos hr]
    refine ⟨?_, ?_, ?_, ?_⟩
    · exact ⟨fun _ => (by omega), fun _ => rfl⟩
    · exact ⟨fun _ => (by omega), fun _ => ⟨_, rfl⟩⟩
    · intro hh; omega
    · intro t ht; cases ht
  · rw [if_neg hr]
    refine ⟨?_, ?_, ?_, ?_⟩
    · exact ⟨fun hh => (by cases hh), fun hh => (by omega)⟩
    · exact ⟨fun hh => (by obtain ⟨e, he⟩ := hh; cases he), fun hh => (by omega)⟩
    · intro _; rfl
    · intro t ht
      cases ht
      show h = h ∧ m = m ∧ 0 ≤ h ∧ h ≤ 23 ∧ 0 ≤ m ∧ m ≤ 59
      omega

/-- C8: `a.getDifference(b)` is the absolute value of the difference of the two
minute-of-day values `hours*60 + minutes`; it is non-negative, symmetric, and zero
between a time and itself. -/
theorem getDifference_abs_symm_self (a b : Time) :
    a.getDifference b = |(a.hours * 60 + a.minutes) - (b.hours * 60 + b.minutes)| ∧
    0 ≤ a.getDifference b ∧
    a.getDifference b = b.getDifference a ∧
    a.getDifference a = 0 := by
  refine ⟨getDifference_eq_abs a b, ?_, getDifference_comm a b, ?_⟩
  · rw [getDifference_eq_abs]; exact abs_nonneg _
  · rw [getDifference_eq_abs]; simp

/-! ## Properties of `Line`: the conflict rule -/

/-- C1: `Line::canAddTrain(t, s)` returns true if and only if every entry `e` of the
schedule, not only the nearest one, is at minute-of-day distance at least 30 from `t` when
`s` or `e.isStoppingTrain` holds, and at least 10 when both are through trains. -/
theorem canAddTrain_iff_every_entry (n : Int) (schedules : List TrainSchedule) (t : Time)
    (s : Bool) :
    (Line.mk n schedules).canAddTrain t s = true ↔
      ∀ e ∈ schedules,
        ((s = true ∨ e.isStoppingTrain = true) →
          30 ≤ |(e.time.hours * 60 + e.time.minutes) - (t.hours * 60 + t.minutes)|) ∧
        ((s = false ∧ e.isStoppingTrain = false) →
          10 ≤ |(e.time.hours * 60 + e.time.minutes) - (t.hours * 60 + t.minutes)|) := by
  unfold Line.canAddTrain
  rw [canAddTrainLoop_iff]
  refine forall_congr' fun e => forall_congr' fun _ => ?_
  rw [getDifference_eq_abs]

/-- C2: `Line::addTrain` throws (and then it is the `TimeConflictException`) if and only if
`canAddTrain` is false, leaving the line as it was; otherwise it returns normally and the
schedule is the old one with the entry `(time, isStoppingTrain)` appended at the end. -/
theorem addTrain_conflict_or_append (l : Line) (time : Time) (isStoppingTrain : Bool) :
    ((l.addTrain time isStoppingTrain).thrown ≠ none ↔
      l.canAddTrain time isStoppingTrain = false) ∧
    ((l.addTrain time isStoppingTrain).thrown =
        some (TimeConflictException "Time slot conflicts with existing schedule") ↔
      l.canAddTrain time isStoppingTrain = false) ∧
    (l.canAddTrain time isStoppingTrain = false →
      (l.addTrain time isStoppingTrain).state = l) ∧
    (l.canAddTrain time isStoppingTrain = true →
      (l.addTrain time isStoppingTrain).thrown = none ∧
      (l.addTrain time isStoppingTrain).state.lineNumber = l.lineNumber ∧
      (l.addTrain time isStoppingTrain).state.schedules =
        l.schedules ++ [⟨time, isStoppingTrain⟩]) := by
  cases hc : l.canAddTrain time isStoppingTrain with
  | false =>
    rw [addTrain_of_canAdd_false l time isStoppingTrain hc]
    simp
  | true =>
    rw [addTrain_of_canAdd_true l time isStoppingTrain hc]
    simp

/-- C3: after any finite sequence of `addTrain` calls (failed ones included) on a newly
constructed line, two entries at distinct positions of the schedule are at least 30
minutes apart in minute-of-day when one of them is a stopping train, and at least 10
minutes apart when both are through trains. -/
theorem addTrains_min_separation (n : Int) (calls : List (Time × Bool)) (i j : Nat)
    (a b : TrainSchedule)
    (ha : ((Line.new n).addTrains calls).schedules[i]? = some a)
    (hb : ((Line.new n).addTrains calls).schedules[j]? = some b)
    (hij : i ≠ j) :
    ((a.isStoppingTrain = true ∨ b.isStoppingTrain = true) →
      30 ≤ |(a.time.hours * 60 + a.time.minutes) - (b.time.hours * 60 + b.time.minutes)|) ∧
    ((a.isStoppingTrain = false ∧ b.isStoppingTrain = false) →
      10 ≤ |(a.time.hours * 60 + a.time.minutes) - (b.time.hours * 60 + b.time.minutes)|) :=
  pairwise_separated_get _
    (addTrains_pairwise calls (Line.new n) List.Pairwise.nil) i j a b ha hb hij

/-- Witness for C3: the calls 10:00 stopping, 10:25 through (rejected), 10:30 through
leave two entries, 30 minutes apart. -/
theorem addTrains_min_separation_witness :
    ((Line.new 1).addTrains
        [(⟨10, 0⟩, true), (⟨10, 25⟩, false), (⟨10, 30⟩, false)]).schedules[0]? =
      some ⟨⟨10, 0⟩, true⟩ ∧
    ((Line.new 1).addTrains
        [(⟨10, 0⟩, true), (⟨10, 25⟩, false), (⟨10, 30⟩, false)]).schedules[1]? =
      some ⟨⟨10, 30⟩, false⟩ ∧
    (0 : Nat) ≠ 1 ∧
    (((true = true ∨ false = true) →
      (30 : Int) ≤ |((10 : Int) * 60 + 0) - (10 * 60 + 30)|) ∧
    ((true = false ∧ false = false) →
      (10 : Int) ≤ |((10 : Int) * 60 + 0) - (10 * 60 + 30)|)) :=
  ⟨by decide, by decide, by decide,
    addTrains_min_separation 1 [(⟨10, 0⟩, true), (⟨10, 25⟩, false), (⟨10, 30⟩, false)] 0 1
      ⟨⟨10, 0⟩, true⟩ ⟨⟨10, 30⟩, false⟩ (by decide) (by decide) (by decide)⟩

/-- C4: on a newly constructed line, (a) after a stopping train at `T` is added (which
succeeds), adding a train of either kind `k` at `T'` throws `TimeConflictException` when
the minute-of-day distance is below 30 and succeeds when it is at least 30; (b) after a
through train at `T` is added, adding a through train at `T'` throws
`TimeConflictException` when the distance is below 10 and succeeds when it is at least 10,
and adding a stopping train at `T'` succeeds exactly when the distance is at least 30. -/
theorem addTrain_fresh_line_thresholds (n : Int) (T T' : Time) (k : Bool) :
    ((Line.new n).addTrain T true).thrown = none ∧
    (|(T'.hours * 60 + T'.minutes) - (T.hours * 60 + T.minutes)| < 30 →
      (((Line.new n).addTrain T true).state.addTrain T' k).thrown =
        some (TimeConflictException "Time slot conflicts with existing schedule")) ∧
    (30 ≤ |(T'.hours * 60 + T'.minutes) - (T.hours * 60 + T.minutes)| →
      (((Line.new n).addTrain T true).state.addTrain T' k).thrown = none) ∧
    ((Line.new n).addTrain T false).thrown = none ∧
    (|(T'.hours * 60 + T'.minutes) - (T.hours * 60 + T.minutes)| < 10 →
      (((Line.new n).addTrain T false).state.addTrain T' false).thrown =
        some (TimeConflictException "Time slot conflicts with existing schedule")) ∧
    (10 ≤ |(T'.hours * 60 + T'.minutes) - (T.hours * 60 + T.minutes)| →
      (((Line.new n).addTrain T false).state.addTrain T' false).thrown = none) ∧
    ((((Line.new n).addTrain T false).state.addTrain T' true).thrown = none ↔
      30 ≤ |(T'.hours * 60 + T'.minutes) - (T.hours * 60 + T.minutes)|) ∧
    (30 ≤ |(T'.hours * 60 + T'.minutes) - (T.hours * 60 + T.minutes)| ∨
      (((Line.new n).addTrain T false).state.addTrain T' true).thrown =
        some (TimeConflictException "Time slot conflicts with existing schedule")) := by
  have hd : ∀ s : Bool, ∀ k' : Bool,
      ((Line.mk n [⟨T, s⟩]).addTrain T' k').thrown =
        (if (k' || s) then
          (if |(T'.hours * 60 + T'.minutes) - (T.hours * 60 + T.minutes)| < 30 then
            some (TimeConflictException "Time slot conflicts with existing schedule")
          else none)
        else
          (if |(T'.hours * 60 + T'.minutes) - (T.hours * 60 + T.minutes)| < 10 then
            some (TimeConflictException "Time slot conflicts with existing schedule")
          else none)) := by
    intro s k'
    rw [abs_sub_comm, ← getDifference_eq_abs]
    unfold Line.addTrain Line.canAddTrain canAddTrainLoop canAddTrainLoop
    simp only
    split <;> split <;> simp_all
  have h1 : ∀ s : Bool, (Line.new n).addTrain T s = ⟨⟨n, [⟨T, s⟩]⟩, none⟩ := by
    intro s; rfl
  simp only [h1, hd]
  cases k <;> simp <;> omega

/-! ## Lemmas on `find_if`, the lookups and the batch loops -/

theorem find_if_eq_none_iff {α : Type} (pred : α → Bool) (v : List α) :
    find_if pred v = none ↔ ∀ x ∈ v, pred x = false := by
  induction v with
  | nil => simp [find_if]
  | cons a xs ih =>
    unfold find_if
    cases ha : pred a with
    | true => simp [ha]
    | false => simp [ha, ih]

theorem find_if_some_first {α : Type} (pred : α → Bool) (v : List α) (i : Fin v.length)
    (h : find_if pred v = some i) :
    ∃ x, v[i.val]? = some x ∧ pred x = true ∧
      ∀ k < i.val, ∀ y, v[k]? = some y → pred y = false := by
  induction v with
  | nil => exact i.elim0
  | cons a xs ih =>
    unfold find_if at h
    cases ha : pred a with
    | true =>
      rw [if_pos ha] at h
      cases h
      exact ⟨a, List.getElem?_cons_zero, ha, fun k hk => absurd hk (Nat.not_lt_zero k)⟩
    | false =>
      rw [ha] at h
      simp only [Bool.false_eq_true, if_false, Option.map_eq_some'] at h
      obtain ⟨i', hi', rfl⟩ := h
      obtain ⟨x, hx, hpx, hfirst⟩ := ih i' hi'
      refine ⟨x, by simpa using hx, hpx, ?_⟩
      intro k hk y hy
      cases k with
      | zero =>
        simp only [List.getElem?_cons_zero, Option.some.injEq] at hy
        rw [← hy]; exact ha
      | succ k' =>
        simp only [List.getElem?_cons_succ] at hy
        exact hfirst k' (by simpa using hk) y hy

theorem find_if_of_first {α : Type} (pred : α → Bool) (v : List α) :
    ∀ (i : Nat) (x : α), v[i]? = some x → pred x = true →
      (∀ k < i, ∀ y, v[k]? = some y → pred y = false) →
      ∃ h : i < v.length, find_if pred v = some ⟨i, h⟩ := by
  induction v with
  | nil => intro i x hx; simp at hx
  | cons a xs ih =>
    intro i x hx hpx hfirst
    cases i with
    | zero =>
      simp only [List.getElem?_cons_zero, Option.some.injEq] at hx
      subst hx
      exact ⟨Nat.succ_pos _, by simp [find_if, hpx]⟩
    | succ i' =>
      simp only [List.getElem?_cons_succ] at hx
      have ha : pred a = false := hfirst 0 (Nat.succ_pos _) a List.getElem?_cons_zero
      obtain ⟨h', hf⟩ := ih i' x hx hpx
        (fun k hk y hy => hfirst (k + 1) (Nat.succ_lt_succ hk) y (by simpa using hy))
      refine ⟨Nat.succ_lt_succ h', ?_⟩
      simp [find_if, ha, hf, Fin.succ]

theorem exists_first_match {α : Type} (pred : α → Bool) (v : List α)
    (h : ∃ x ∈ v, pred x = true) :
    ∃ (i : Nat) (x : α), v[i]? = some x ∧ pred x = true ∧
      ∀ k < i, ∀ y, v[k]? = some y → pred y = false := by
  cases hf : find_if pred v with
  | none =>
    obtain ⟨x, hx, hpx⟩ := h
    rw [(find_if_eq_none_iff pred v).mp hf x hx] at hpx
    cases hpx
  | some i =>
    obtain ⟨x, hx, hpx, hfirst⟩ := find_if_some_first pred v i hf
    exact ⟨i.val, x, hx, hpx, hfirst⟩

theorem get_of_getElem? {α : Type} (v : List α) (i : Nat) (x : α) (hx : v[i]? = some x)
    (h : i < v.length) : v.get ⟨i, h⟩ = x := by
  rw [List.getElem?_eq_getElem h] at hx
  exact Option.some.inj hx

theorem addTrainSchedule_no_platform {T : Type} (st : RailwayStation T) (p l : Int) (t : Time)
    (s : Bool) (h : ∀ P ∈ st.platforms, P.platformNumber ≠ p) :
    st.addTrainSchedule p l t s = ⟨st, some (RailwayException "Platform not found")⟩ := by
  have hf : st.findPlatform p = none :=
    (find_if_eq_none_iff _ _).mpr (fun P hP => by simpa using h P hP)
  unfold RailwayStation.addTrainSchedule
  rw [hf]

theorem findPlatform_of_first {T : Type} (st : RailwayStation T) (p : Int) (i : Nat)
    (P : Platform) (hP : st.platforms[i]? = some P) (hn : P.platformNumber = p)
    (hfirst : ∀ k < i, ∀ Q, st.platforms[k]? = some Q → Q.platformNumber ≠ p) :
    ∃ h : i < st.platforms.length, st.findPlatform p = some ⟨i, h⟩ :=
  find_if_of_first _ st.platforms i P hP (by simpa using hn)
    (fun k hk Q hQ => by simpa using hfirst k hk Q hQ)

theorem findLine_of_first (P : Platform) (l : Int) (j : Nat)
    (L : Line) (hL : P.lines[j]? = some L) (hn : L.lineNumber = l)
    (hfirst : ∀ k < j, ∀ M, P.lines[k]? = some M → M.lineNumber ≠ l) :
    ∃ h : j < P.lines.length, P.findLine l = some ⟨j, h⟩ :=
  find_if_of_first _ P.lines j L hL (by simpa using hn)
    (fun k hk M hM => by simpa using hfirst k hk M hM)

theorem addTrainSchedule_no_line {T : Type} (st : RailwayStation T) (p l : Int) (t : Time)
    (s : Bool) (i : Nat) (P : Platform) (hP : st.platforms[i]? = some P)
    (hn : P.platformNumber = p)
    (hfirst : ∀ k < i, ∀ Q, st.platforms[k]? = some Q → Q.platformNumber ≠ p)
    (hl : ∀ L ∈ P.lines, L.lineNumber ≠ l) :
    st.addTrainSchedule p l t s =
      ⟨st, some (RailwayException "Line not found on this platform")⟩ := by
  obtain ⟨h, hf⟩ := findPlatform_of_first st p i P hP hn hfirst
  have hg : st.platforms.get ⟨i, h⟩ = P := get_of_getElem? _ _ _ hP h
  have hnone : P.findLine l = none :=
    (find_if_eq_none_iff _ _).mpr (fun L hL => by simpa using hl L hL)
  subst hg
  unfold RailwayStation.addTrainSchedule
  rw [hf]
  simp only [hnone]

theorem addTrainSchedule_found {T : Type} (st : RailwayStation T) (p l : Int) (t : Time)
    (s : Bool) (i : Nat) (P : Platform) (hP : st.platforms[i]? = some P)
    (hn : P.platformNumber = p)
    (hfirst : ∀ k < i, ∀ Q, st.platforms[k]? = some Q → Q.platformNumber ≠ p)
    (j : Nat) (L : Line) (hL : P.lines[j]? = some L) (hln : L.lineNumber = l)
    (hlfirst : ∀ k < j, ∀ M, P.lines[k]? = some M → M.lineNumber ≠ l) :
    st.addTrainSchedule p l t s =
      ⟨⟨st.id, st.name,
          st.platforms.set i ⟨P.platformNumber, P.lines.set j (L.addTrain t s).state⟩⟩,
        (L.addTrain t s).thrown⟩ := by
  obtain ⟨h, hf⟩ := findPlatform_of_first st p i P hP hn hfirst
  have hg : st.platforms.get ⟨i, h⟩ = P := get_of_getElem? _ _ _ hP h
  obtain ⟨h', hf'⟩ := findLine_of_first P l j L hL hln hlfirst
  have hg' : P.lines.get ⟨j, h'⟩ = L := get_of_getElem? _ _ _ hL h'
  subst hg
  subst hg'
  unfold RailwayStation.addTrainSchedule
  rw [hf]
  simp only [hf']

theorem find_if_isSome_iff {α : Type} (pred : α → Bool) (v : List α) :
    (find_if pred v).isSome = true ↔ ∃ x ∈ v, pred x = true := by
  cases hf : find_if pred v with
  | none =>
    have := (find_if_eq_none_iff pred v).mp hf
    simp only [Option.isSome_none, Bool.false_eq_true, false_iff, not_exists, not_and,
      Bool.not_eq_true]
    exact this
  | some i =>
    obtain ⟨x, hx, hpx, _⟩ := find_if_some_first pred v i hf
    simp only [Option.isSome_some, true_iff]
    exact ⟨x, List.getElem?_mem hx, hpx⟩

theorem addLine_thrown_none (p : Platform) (n : Int) (h : (p.addLine n).thrown = none) :
    p.addLine n = ⟨⟨p.platformNumber, p.lines ++ [Line.new n]⟩, none⟩ := by
  unfold Platform.addLine at h ⊢
  split at h
  · cases h
  · split at h
    · cases h
    · rename_i h1 h2
      rw [if_neg h1, if_neg h2]

theorem addLine_thrown_some (p : Platform) (n : Int) (e : Exception)
    (h : (p.addLine n).thrown = some e) : p.addLine n = ⟨p, some e⟩ := by
  unfold Platform.addLine at h ⊢
  split at h
  · rename_i h1
    rw [if_pos h1]
    simp only [Option.some.injEq] at h
    rw [h]
  · split at h
    · rename_i h1 h2
      rw [if_neg h1, if_pos h2]
      simp only [Option.some.injEq] at h
      rw [h]
    · cases h

theorem addLinesLoop_fail (numbers : List Int) :
    ∀ (p : Platform) (k : Nat) (x : Int) (e : Exception), numbers[k]? = some x →
      (∀ i < k, ∀ y, numbers[i]? = some y →
        ((⟨p.platformNumber, p.lines ++ (numbers.take i).map Line.new⟩ : Platform).addLine
          y).thrown = none) →
      ((⟨p.platformNumber, p.lines ++ (numbers.take k).map Line.new⟩ : Platform).addLine
        x).thrown = some e →
      p.addLinesLoop numbers =
        ⟨⟨p.platformNumber, p.lines ++ (numbers.take k).map Line.new⟩, some e⟩ := by
  induction numbers with
  | nil => intro p k x e hx; simp at hx
  | cons a rest ih =>
    intro p k x e hx hprev hfail
    cases k with
    | zero =>
      simp only [List.getElem?_cons_zero, Option.some.injEq] at hx
      subst hx
      simp only [List.take_zero, List.map_nil, List.append_nil] at hfail ⊢
      rw [Platform.addLinesLoop, addLine_thrown_some p a e hfail]
    | succ k' =>
      have h0 := hprev 0 (Nat.succ_pos _) a List.getElem?_cons_zero
      simp only [List.take_zero, List.map_nil, List.append_nil] at h0
      rw [Platform.addLinesLoop, addLine_thrown_none p a h0]
      simp only [List.getElem?_cons_succ] at hx
      have := ih ⟨p.platformNumber, p.lines ++ [Line.new a]⟩ k' x e hx
        (fun i hi y hy => by
          have := hprev (i + 1) (Nat.succ_lt_succ hi) y (by simpa using hy)
          simpa using this)
        (by simpa using hfail)
      simpa using this

theorem addLinesLoop_ok (numbers : List Int) :
    ∀ (p : Platform),
      (∀ i y, numbers[i]? = some y →
        ((⟨p.platformNumber, p.lines ++ (numbers.take i).map Line.new⟩ : Platform).addLine
          y).thrown = none) →
      p.addLinesLoop numbers =
        ⟨⟨p.platformNumber, p.lines ++ numbers.map Line.new⟩, none⟩ := by
  induction numbers with
  | nil => intro p _; simp [Platform.addLinesLoop]
  | cons a rest ih =>
    intro p hall
    have h0 := hall 0 a List.getElem?_cons_zero
    simp only [List.take_zero, List.map_nil, List.append_nil] at h0
    rw [Platform.addLinesLoop, addLine_thrown_none p a h0]
    have := ih ⟨p.platformNumber, p.lines ++ [Line.new a]⟩
      (fun i y hy => by
        have := hall (i + 1) y (by simpa using hy)
        simpa using this)
    simpa using this

theorem map_set_of_eq {α β : Type} (f : α → β) (v : List α) :
    ∀ (i : Nat) (x y : α), v[i]? = some x → f y = f x → (v.set i y).map f = v.map f := by
  induction v with
  | nil => intro i x y hx; simp at hx
  | cons a rest ih =>
    intro i x y hx hf
    cases i with
    | zero =>
      simp only [List.getElem?_cons_zero, Option.some.injEq] at hx
      subst hx
      simp [hf]
    | succ i' =>
      simp only [List.getElem?_cons_succ] at hx
      simp [ih i' x y hx hf]

theorem getElem?_of_map_eq {α β : Type} (f : α → β) (v w : List α) (h : w.map f = v.map f)
    (i : Nat) (x : α) (hx : v[i]? = some x) : ∃ y, w[i]? = some y ∧ f y = f x := by
  have h1 : (w.map f)[i]? = (v.map f)[i]? := by rw [h]
  rw [List.getElem?_map, List.getElem?_map, hx] at h1
  cases hw : w[i]? with
  | none => rw [hw] at h1; cases h1
  | some y =>
    rw [hw] at h1
    exact ⟨y, rfl, Option.some.inj h1⟩

theorem nodup_map_index_unique {α β : Type} (f : α → β) (v : List α) :
    ∀ (i k : Nat) (x y : α), (v.map f).Nodup → v[i]? = some x → v[k]? = some y →
      f x = f y → i = k := by
  induction v with
  | nil => intro i k x y _ hx; simp at hx
  | cons a rest ih =>
    intro i k x y hnd hx hy hf
    rw [List.map_cons, List.nodup_cons] at hnd
    cases i with
    | zero =>
      cases k with
      | zero => rfl
      | succ k' =>
        simp only [List.getElem?_cons_zero, Option.some.injEq] at hx
        simp only [List.getElem?_cons_succ] at hy
        subst hx
        exact absurd (hf ▸ List.mem_map_of_mem f (List.getElem?_mem hy)) hnd.1
    | succ i' =>
      cases k with
      | zero =>
        simp only [List.getElem?_cons_zero, Option.some.injEq] at hy
        simp only [List.getElem?_cons_succ] at hx
        subst hy
        exact absurd (hf ▸ List.mem_map_of_mem f (List.getElem?_mem hx)) hnd.1
      | succ k' =>
        simp only [List.getElem?_cons_succ] at hx hy
        rw [ih i' k' x y hnd.2 hx hy hf]

theorem addTrain_state_lineNumber (L : Line) (t : Time) (s : Bool) :
    (L.addTrain t s).state.lineNumber = L.lineNumber := by
  unfold Line.addTrain
  split <;> rfl

theorem addTrain_thrown_congr (L L2 : Line) (t : Time) (s : Bool)
    (h : L2.schedules = L.schedules) : (L2.addTrain t s).thrown = (L.addTrain t s).thrown := by
  unfold Line.addTrain Line.canAddTrain
  rw [h]
  split <;> rfl

theorem addTrain_empty_thrown (L : Line) (t : Time) (s : Bool) (h : L.schedules = []) :
    (L.addTrain t s).thrown = none := by
  unfold Line.addTrain Line.canAddTrain
  rw [h]
  rfl

/-- Either the call threw during lookup and left the station untouched, or it reached
`addTrain` on the first line numbered `l` of the first platform numbered `p`. -/
theorem addTrainSchedule_cases {T : Type} (st : RailwayStation T) (p l : Int) (t : Time)
    (s : Bool) :
    (∃ e, st.addTrainSchedule p l t s = ⟨st, some e⟩) ∨
    (∃ (i : Nat) (P : Platform) (j : Nat) (L : Line),
      st.platforms[i]? = some P ∧ P.platformNumber = p ∧
      (∀ k < i, ∀ Q, st.platforms[k]? = some Q → Q.platformNumber ≠ p) ∧
      P.lines[j]? = some L ∧ L.lineNumber = l ∧
      (∀ k < j, ∀ M, P.lines[k]? = some M → M.lineNumber ≠ l) ∧
      st.addTrainSchedule p l t s =
        ⟨⟨st.id, st.name,
            st.platforms.set i ⟨P.platformNumber, P.lines.set j (L.addTrain t s).state⟩⟩,
          (L.addTrain t s).thrown⟩) := by
  by_cases hp : ∃ P ∈ st.platforms, (P.platformNumber == p) = true
  · obtain ⟨i, P, hP, hn, hfirst⟩ :=
      exists_first_match (fun P : Platform => P.platformNumber == p) st.platforms hp
    have hn' : P.platformNumber = p := by simpa using hn
    have hfirst' : ∀ k < i, ∀ Q, st.platforms[k]? = some Q → Q.platformNumber ≠ p :=
      fun k hk Q hQ => by simpa using hfirst k hk Q hQ
    by_cases hl : ∃ L ∈ P.lines, (L.lineNumber == l) = true
    · obtain ⟨j, L, hL, hln, hlfirst⟩ :=
        exists_first_match (fun L : Line => L.lineNumber == l) P.lines hl
      have hln' : L.lineNumber = l := by simpa using hln
      have hlfirst' : ∀ k < j, ∀ M, P.lines[k]? = some M → M.lineNumber ≠ l :=
        fun k hk M hM => by simpa using hlfirst k hk M hM
      exact Or.inr ⟨i, P, j, L, hP, hn', hfirst', hL, hln', hlfirst',
        addTrainSchedule_found st p l t s i P hP hn' hfirst' j L hL hln' hlfirst'⟩
    · refine Or.inl ⟨_, addTrainSchedule_no_line st p l t s i P hP hn' hfirst' ?_⟩
      intro L hL hLn
      exact hl ⟨L, hL, by simpa using hLn⟩
  · refine Or.inl ⟨_, addTrainSchedule_no_platform st p l t s ?_⟩
    intro P hP hPn
    exact hp ⟨P, hP, by simpa using hPn⟩

theorem addTrainSchedule_keeps_numbers {T : Type} (st : RailwayStation T) (p l : Int)
    (t : Time) (s : Bool) :
    (st.addTrainSchedule p l t s).state.id = st.id ∧
    (st.addTrainSchedule p l t s).state.name = st.name ∧
    (st.addTrainSchedule p l t s).state.platforms.map
        (fun P : Platform => (P.platformNumber, P.lines.map (fun L : Line => L.lineNumber))) =
      st.platforms.map
        (fun P : Platform => (P.platformNumber, P.lines.map (fun L : Line => L.lineNumber))) := by
  rcases addTrainSchedule_cases st p l t s with ⟨e, he⟩ | ⟨i, P, j, L, hP, _, _, hL, _, _, hr⟩
  · rw [he]; exact ⟨rfl, rfl, rfl⟩
  · rw [hr]
    refine ⟨rfl, rfl, ?_⟩
    refine map_set_of_eq _ st.platforms i P _ hP ?_
    have := map_set_of_eq (fun L : Line => L.lineNumber) P.lines j L (L.addTrain t s).state hL
      (addTrain_state_lineNumber L t s)
    simp only [this]

theorem addTrainSchedule_other_lines {T : Type} (st : RailwayStation T) (p l : Int)
    (t : Time) (s : Bool) (i j : Nat) (P P' : Platform) (L L' : Line)
    (hP : st.platforms[i]? = some P)
    (hP' : (st.addTrainSchedule p l t s).state.platforms[i]? = some P')
    (hL : P.lines[j]? = some L) (hL' : P'.lines[j]? = some L')
    (hne : ¬ (P.platformNumber = p ∧ L.lineNumber = l)) : L' = L := by
  rcases addTrainSchedule_cases st p l t s with
    ⟨e, he⟩ | ⟨i0, P0, j0, L0, hP0, hn0, _, hL0, hln0, _, hr⟩
  · rw [he] at hP'
    simp only at hP'
    rw [hP] at hP'
    cases hP'
    rw [hL] at hL'
    exact (Option.some.inj hL').symm
  · rw [hr] at hP'
    simp only [List.getElem?_set] at hP'
    by_cases hi : i0 = i
    · subst hi
      rw [hP0] at hP
      cases hP
      rw [if_pos rfl] at hP'
      split at hP'
      · cases hP'
        simp only [List.getElem?_set] at hL'
        by_cases hj : j0 = j
        · subst hj
          rw [hL0] at hL
          cases hL
          exact absurd ⟨hn0, hln0⟩ hne
        · rw [if_neg hj, hL] at hL'
          exact (Option.some.inj hL').symm
      · cases hP'
    · rw [if_neg hi, hP] at hP'
      cases hP'
      rw [hL] at hL'
      exact (Option.some.inj hL').symm

theorem forall_ne_of_map_eq {α β : Type} (f : α → β) (v w : List α) (h : w.map f = v.map f)
    (b : β) (hv : ∀ x ∈ v, f x ≠ b) : ∀ y ∈ w, f y ≠ b := by
  intro y hy
  have hm : f y ∈ v.map f := h ▸ List.mem_map_of_mem f hy
  obtain ⟨x, hx, hfx⟩ := List.mem_map.mp hm
  rw [← hfx]
  exact hv x hx

theorem first_of_map_eq {α β : Type} (f : α → β) (v w : List α) (h : w.map f = v.map f)
    (b : β) (i : Nat) (hfirst : ∀ k < i, ∀ x, v[k]? = some x → f x ≠ b) :
    ∀ k < i, ∀ y, w[k]? = some y → f y ≠ b := by
  intro k hk y hy
  obtain ⟨x, hx, hfx⟩ := getElem?_of_map_eq f w v h.symm k y hy
  rw [← hfx]
  exact hfirst k hk x hx

theorem addTrainSchedule_thrown_independent {T : Type} (st st2 : RailwayStation T) (p l : Int)
    (t : Time) (s : Bool)
    (hshape : st2.platforms.map
        (fun P : Platform => (P.platformNumber, P.lines.map (fun L : Line => L.lineNumber))) =
      st.platforms.map
        (fun P : Platform => (P.platformNumber, P.lines.map (fun L : Line => L.lineNumber))))
    (hsched : ∀ (i j : Nat) (P P2 : Platform) (L L2 : Line), st.platforms[i]? = some P →
      st2.platforms[i]? = some P2 → P.lines[j]? = some L → P2.lines[j]? = some L2 →
      P.platformNumber = p → L.lineNumber = l → L2.schedules = L.schedules) :
    (st2.addTrainSchedule p l t s).thrown = (st.addTrainSchedule p l t s).thrown := by
  have hnum : st2.platforms.map (fun P : Platform => P.platformNumber) =
      st.platforms.map (fun P : Platform => P.platformNumber) := by
    have := congrArg (List.map Prod.fst) hshape
    simpa [List.map_map, Function.comp_def] using this
  by_cases hp : ∃ P ∈ st.platforms, (P.platformNumber == p) = true
  · obtain ⟨i, P, hP, hn, hfirst⟩ :=
      exists_first_match (fun P : Platform => P.platformNumber == p) st.platforms hp
    have hn' : P.platformNumber = p := by simpa using hn
    have hfirst' : ∀ k < i, ∀ Q, st.platforms[k]? = some Q → Q.platformNumber ≠ p :=
      fun k hk Q hQ => by simpa using hfirst k hk Q hQ
    obtain ⟨P2, hP2, hsh⟩ := getElem?_of_map_eq _ st.platforms st2.platforms hshape i P hP
    simp only [Prod.mk.injEq] at hsh
    obtain ⟨hn2, hlines⟩ := hsh
    have hfirst2 := first_of_map_eq (fun P : Platform => P.platformNumber) st.platforms
      st2.platforms hnum p i hfirst'
    by_cases hl : ∃ L ∈ P.lines, (L.lineNumber == l) = true
    · obtain ⟨j, L, hL, hln, hlfirst⟩ :=
        exists_first_match (fun L : Line => L.lineNumber == l) P.lines hl
      have hln' : L.lineNumber = l := by simpa using hln
      have hlfirst' : ∀ k < j, ∀ M, P.lines[k]? = some M → M.lineNumber ≠ l :=
        fun k hk M hM => by simpa using hlfirst k hk M hM
      obtain ⟨L2, hL2, hln2⟩ := getElem?_of_map_eq _ P.lines P2.lines hlines j L hL
      have hlfirst2 := first_of_map_eq (fun L : Line => L.lineNumber) P.lines P2.lines
        hlines l j hlfirst'
      rw [addTrainSchedule_found st p l t s i P hP hn' hfirst' j L hL hln' hlfirst',
        addTrainSchedule_found st2 p l t s i P2 hP2 (hn2.trans hn') hfirst2 j L2 hL2
          (hln2.trans hln') hlfirst2]
      exact addTrain_thrown_congr L L2 t s (hsched i j P P2 L L2 hP hP2 hL hL2 hn' hln')
    · have hnl : ∀ L ∈ P.lines, L.lineNumber ≠ l := by
        intro L hL hLn
        exact hl ⟨L, hL, by simpa using hLn⟩
      have hnl2 := forall_ne_of_map_eq (fun L : Line => L.lineNumber) P.lines P2.lines
        hlines l hnl
      rw [addTrainSchedule_no_line st p l t s i P hP hn' hfirst' hnl,
        addTrainSchedule_no_line st2 p l t s i P2 hP2 (hn2.trans hn') hfirst2 hnl2]
  · have hnp : ∀ P ∈ st.platforms, P.platformNumber ≠ p := by
      intro P hP hPn
      exact hp ⟨P, hP, by simpa using hPn⟩
    have hnp2 := forall_ne_of_map_eq (fun P : Platform => P.platformNumber) st.platforms
      st2.platforms hnum p hnp
    rw [addTrainSchedule_no_platform st p l t s hnp,
      addTrainSchedule_no_platform st2 p l t s hnp2]

theorem first_of_nodup {α : Type} (f : α → Int) (v : List α) (hnd : (v.map f).Nodup)
    (i : Nat) (x : α) (hx : v[i]? = some x) :
    ∀ k < i, ∀ y, v[k]? = some y → f y ≠ f x := by
  intro k hk y hy hf
  have := nodup_map_index_unique f v k i y x hnd hy hx hf
  omega

theorem addTrainSchedule_two_empty_lines {T : Type} (st : RailwayStation T) (t : Time)
    (s s2 : Bool)
    (hP : (st.platforms.map (fun P : Platform => P.platformNumber)).Nodup)
    (hL : ∀ P ∈ st.platforms, (P.lines.map (fun L : Line => L.lineNumber)).Nodup)
    (P : Platform) (hPm : P ∈ st.platforms) (L1 L2 : Line) (h1 : L1 ∈ P.lines)
    (h2 : L2 ∈ P.lines) (hne : L1.lineNumber ≠ L2.lineNumber) (he1 : L1.schedules = [])
    (he2 : L2.schedules = []) :
    (st.addTrainSchedule P.platformNumber L1.lineNumber t s).thrown = none ∧
    ((st.addTrainSchedule P.platformNumber L1.lineNumber t s).state.addTrainSchedule
      P.platformNumber L2.lineNumber t s2).thrown = none := by
  obtain ⟨i, hi⟩ := List.mem_iff_getElem?.mp hPm
  obtain ⟨j1, hj1⟩ := List.mem_iff_getElem?.mp h1
  obtain ⟨j2, hj2⟩ := List.mem_iff_getElem?.mp h2
  have hLP := hL P hPm
  have hfirstP := first_of_nodup (fun P : Platform => P.platformNumber) st.platforms hP i P hi
  have hfirst1 := first_of_nodup (fun L : Line => L.lineNumber) P.lines hLP j1 L1 hj1
  have hfirst2 := first_of_nodup (fun L : Line => L.lineNumber) P.lines hLP j2 L2 hj2
  have hr := addTrainSchedule_found st P.platformNumber L1.lineNumber t s i P hi rfl hfirstP
    j1 L1 hj1 rfl hfirst1
  have hj : j1 ≠ j2 := by
    intro h
    subst h
    rw [hj1] at hj2
    cases hj2
    exact hne rfl
  have hilt : i < st.platforms.length := (List.getElem?_eq_some.mp hi).1
  constructor
  · rw [hr]
    exact addTrain_empty_thrown L1 t s he1
  · rw [hr]
    have hi' : (st.platforms.set i
        ⟨P.platformNumber, P.lines.set j1 (L1.addTrain t s).state⟩)[i]? =
        some ⟨P.platformNumber, P.lines.set j1 (L1.addTrain t s).state⟩ := by
      rw [List.getElem?_set, if_pos rfl, if_pos hilt]
    have hfirstP' : ∀ k < i, ∀ Q, (st.platforms.set i
        ⟨P.platformNumber, P.lines.set j1 (L1.addTrain t s).state⟩)[k]? = some Q →
        Q.platformNumber ≠ P.platformNumber := by
      intro k hk Q hQ
      rw [List.getElem?_set, if_neg (by omega)] at hQ
      exact hfirstP k hk Q hQ
    have hj2' : (P.lines.set j1 (L1.addTrain t s).state)[j2]? = some L2 := by
      rw [List.getElem?_set, if_neg hj]
      exact hj2
    have hfirst2' : ∀ k < j2, ∀ M, (P.lines.set j1 (L1.addTrain t s).state)[k]? = some M →
        M.lineNumber ≠ L2.lineNumber := by
      intro k hk M hM
      rw [List.getElem?_set] at hM
      by_cases hk1 : j1 = k
      · rw [if_pos hk1] at hM
        split at hM
        · cases hM
          rw [addTrain_state_lineNumber]
          exact hne
        · cases hM
      · rw [if_neg hk1] at hM
        exact hfirst2 k hk M hM
    have hr2 := addTrainSchedule_found
      (⟨st.id, st.name, st.platforms.set i
        ⟨P.platformNumber, P.lines.set j1 (L1.addTrain t s).state⟩⟩ : RailwayStation T)
      P.platformNumber L2.lineNumber t s2 i
      ⟨P.platformNumber, P.lines.set j1 (L1.addTrain t s).state⟩ hi' rfl hfirstP'
      j2 L2 hj2' rfl hfirst2'
    rw [hr2]
    exact addTrain_empty_thrown L2 t s2 he2

theorem addPlatform_thrown_none {T : Type} (st : RailwayStation T) (n : Int)
    (h : (st.addPlatform n).thrown = none) :
    st.addPlatform n = ⟨⟨st.id, st.name, st.platforms ++ [⟨n, []⟩]⟩, none⟩ := by
  unfold RailwayStation.addPlatform at h ⊢
  split at h
  · cases h
  · rename_i h1
    rw [if_neg h1]
    unfold Platform.new at h ⊢
    by_cases hn : n ≤ 0
    · rw [if_pos hn] at h; cases h
    · rw [if_neg hn]

theorem addPlatform_thrown_some {T : Type} (st : RailwayStation T) (n : Int) (e : Exception)
    (h : (st.addPlatform n).thrown = some e) : st.addPlatform n = ⟨st, some e⟩ := by
  unfold RailwayStation.addPlatform at h ⊢
  split at h
  · rename_i h1
    rw [if_pos h1]
    simp only [Option.some.injEq] at h
    rw [h]
  · rename_i h1
    rw [if_neg h1]
    unfold Platform.new at h ⊢
    by_cases hn : n ≤ 0
    · rw [if_pos hn] at h ⊢
      simp only [Option.some.injEq] at h
      rw [h]
    · rw [if_neg hn] at h; cases h

theorem addPlatformsLoop_fail {T : Type} (numbers : List Int) :
    ∀ (st : RailwayStation T) (k : Nat) (x : Int) (e : Exception), numbers[k]? = some x →
      (∀ i < k, ∀ y, numbers[i]? = some y →
        ((⟨st.id, st.name, st.platforms ++ (numbers.take i).map (fun n => ⟨n, []⟩)⟩ :
          RailwayStation T).addPlatform y).thrown = none) →
      ((⟨st.id, st.name, st.platforms ++ (numbers.take k).map (fun n => ⟨n, []⟩)⟩ :
        RailwayStation T).addPlatform x).thrown = some e →
      st.addPlatformsLoop numbers =
        ⟨⟨st.id, st.name, st.platforms ++ (numbers.take k).map (fun n => ⟨n, []⟩)⟩,
          some e⟩ := by
  induction numbers with
  | nil => intro st k x e hx; simp at hx
  | cons a rest ih =>
    intro st k x e hx hprev hfail
    cases k with
    | zero =>
      simp only [List.getElem?_cons_zero, Option.some.injEq] at hx
      subst hx
      simp only [List.take_zero, List.map_nil, List.append_nil] at hfail ⊢
      rw [RailwayStation.addPlatformsLoop, addPlatform_thrown_some st a e hfail]
    | succ k' =>
      have h0 := hprev 0 (Nat.succ_pos _) a List.getElem?_cons_zero
      simp only [List.take_zero, List.map_nil, List.append_nil] at h0
      rw [RailwayStation.addPlatformsLoop, addPlatform_thrown_none st a h0]
      simp only [List.getElem?_cons_succ] at hx
      have := ih ⟨st.id, st.name, st.platforms ++ [⟨a, []⟩]⟩ k' x e hx
        (fun i hi y hy => by
          have := hprev (i + 1) (Nat.succ_lt_succ hi) y (by simpa using hy)
          simpa using this)
        (by simpa using hfail)
      simpa using this

theorem addPlatformsLoop_ok {T : Type} (numbers : List Int) :
    ∀ (st : RailwayStation T),
      (∀ i y, numbers[i]? = some y →
        ((⟨st.id, st.name, st.platforms ++ (numbers.take i).map (fun n => ⟨n, []⟩)⟩ :
          RailwayStation T).addPlatform y).thrown = none) →
      st.addPlatformsLoop numbers =
        ⟨⟨st.id, st.name, st.platforms ++ numbers.map (fun n => ⟨n, []⟩)⟩, none⟩ := by
  induction numbers with
  | nil => intro st _; simp [RailwayStation.addPlatformsLoop]
  | cons a rest ih =>
    intro st hall
    have h0 := hall 0 a List.getElem?_cons_zero
    simp only [List.take_zero, List.map_nil, List.append_nil] at h0
    rw [RailwayStation.addPlatformsLoop, addPlatform_thrown_none st a h0]
    have := ih ⟨st.id, st.name, st.platforms ++ [⟨a, []⟩]⟩
      (fun i y hy => by
        have := hall (i + 1) y (by simpa using hy)
        simpa using this)
    simpa using this

/-! ## Properties of `RailwayStation::addTrainSchedule` -/

/-- C5: `RailwayStation::addTrainSchedule` throws `RailwayException("Platform not found")`
when no platform of the station has the number; otherwise, with `P` the first platform of
that number, it throws `RailwayException("Line not found on this platform")` when no line
of `P` has the line number; otherwise, with `L` the first such line of `P`, the exception
that escapes (none, or the `TimeConflictException`) is that of `L.addTrain`, and the
station afterwards is the old one with `L` replaced by the line `L.addTrain` left. -/
theorem addTrainSchedule_lookup_then_addTrain {T : Type} (st : RailwayStation T)
    (platformNumber lineNumber : Int) (time : Time) (isStoppingTrain : Bool) :
    ((∀ P ∈ st.platforms, P.platformNumber ≠ platformNumber) →
      st.addTrainSchedule platformNumber lineNumber time isStoppingTrain =
        ⟨st, some (RailwayException "Platform not found")⟩) ∧
    (∀ (i : Nat) (P : Platform), st.platforms[i]? = some P →
      P.platformNumber = platformNumber →
      (∀ k < i, ∀ Q, st.platforms[k]? = some Q → Q.platformNumber ≠ platformNumber) →
      ((∀ L ∈ P.lines, L.lineNumber ≠ lineNumber) →
        st.addTrainSchedule platformNumber lineNumber time isStoppingTrain =
          ⟨st, some (RailwayException "Line not found on this platform")⟩) ∧
      (∀ (j : Nat) (L : Line), P.lines[j]? = some L → L.lineNumber = lineNumber →
        (∀ k < j, ∀ M, P.lines[k]? = some M → M.lineNumber ≠ lineNumber) →
        (st.addTrainSchedule platformNumber lineNumber time isStoppingTrain).thrown =
          (L.addTrain time isStoppingTrain).thrown ∧
        (st.addTrainSchedule platformNumber lineNumber time isStoppingTrain).state =
          ⟨st.id, st.name, st.platforms.set i
            ⟨P.platformNumber, P.lines.set j (L.addTrain time isStoppingTrain).state⟩⟩)) := by
  refine ⟨addTrainSchedule_no_platform st _ _ _ _, ?_⟩
  intro i P hP hn hfirst
  refine ⟨addTrainSchedule_no_line st _ _ _ _ i P hP hn hfirst, ?_⟩
  intro j L hL hln hlfirst
  rw [addTrainSchedule_found st _ _ _ _ i P hP hn hfirst j L hL hln hlfirst]
  exact ⟨rfl, rfl⟩

/-! ## Properties of `addLine`, `addLines` and `addPlatforms` -/

/-- C9: `Platform::addLine(n)` throws `RailwayException("Line number must be positive")`
when `n <= 0`; throws `RailwayException("Line already exists on this platform")` when
`n > 0` and a stored line has number `n`; otherwise returns normally and the line
collection is the old one followed by one new line with number `n` and an empty schedule.
A call that throws leaves the platform as it was. -/
theorem addLine_invalid_duplicate_or_append (p : Platform) (n : Int) :
    (n ≤ 0 → p.addLine n = ⟨p, some (RailwayException "Line number must be positive")⟩) ∧
    (0 < n → (∃ L ∈ p.lines, L.lineNumber = n) →
      p.addLine n = ⟨p, some (RailwayException "Line already exists on this platform")⟩) ∧
    (0 < n → (∀ L ∈ p.lines, L.lineNumber ≠ n) →
      p.addLine n = ⟨⟨p.platformNumber, p.lines ++ [⟨n, []⟩]⟩, none⟩) := by
  refine ⟨?_, ?_, ?_⟩
  · intro hn
    unfold Platform.addLine
    rw [if_pos hn]
  · intro hn hex
    have hs : (p.findLine n).isSome = true :=
      (find_if_isSome_iff _ _).mpr (by simpa using hex)
    unfold Platform.addLine
    rw [if_neg (by omega), if_pos hs]
  · intro hn hall
    have hs : ¬ (p.findLine n).isSome = true := by
      rw [Platform.findLine, find_if_isSome_iff]
      rintro ⟨L, hL, hLn⟩
      exact hall L hL (by simpa using hLn)
    unfold Platform.addLine
    rw [if_neg (by omega), if_neg hs]
    rfl

/-- C10: for a non-empty list, `Platform::addLines` is `addLine` on each number in list
order, stopping at the first call that throws. With `S i` the platform holding the
original lines followed by new empty lines for the first `i` numbers: a call that succeeds
on `S i` yields `S (i+1)` and a call that throws leaves `S i`; if the calls for all indices
below `k` succeed and the call for index `k` throws `e`, `addLines` throws `e` and leaves
`S k` (no rollback); if no call throws, `addLines` returns normally with all lines added
in list order. `RailwayStation::addPlatforms` does the same with `addPlatform`. -/
theorem addLines_addPlatforms_sequential {T : Type} (p : Platform) (st : RailwayStation T)
    (numbers : List Int) (hne : numbers ≠ []) :
    (∀ i y, numbers[i]? = some y →
      (((⟨p.platformNumber, p.lines ++ (numbers.take i).map Line.new⟩ : Platform).addLine
          y).thrown = none →
        ((⟨p.platformNumber, p.lines ++ (numbers.take i).map Line.new⟩ : Platform).addLine
          y).state = ⟨p.platformNumber, p.lines ++ (numbers.take (i + 1)).map Line.new⟩) ∧
      (∀ e, ((⟨p.platformNumber, p.lines ++ (numbers.take i).map Line.new⟩ :
          Platform).addLine y).thrown = some e →
        ((⟨p.platformNumber, p.lines ++ (numbers.take i).map Line.new⟩ : Platform).addLine
          y).state = ⟨p.platformNumber, p.lines ++ (numbers.take i).map Line.new⟩)) ∧
    (∀ k x e, numbers[k]? = some x →
      (∀ i < k, ∀ y, numbers[i]? = some y →
        ((⟨p.platformNumber, p.lines ++ (numbers.take i).map Line.new⟩ : Platform).addLine
          y).thrown = none) →
      ((⟨p.platformNumber, p.lines ++ (numbers.take k).map Line.new⟩ : Platform).addLine
        x).thrown = some e →
      p.addLines numbers =
        ⟨⟨p.platformNumber, p.lines ++ (numbers.take k).map Line.new⟩, some e⟩) ∧
    ((∀ i y, numbers[i]? = some y →
        ((⟨p.platformNumber, p.lines ++ (numbers.take i).map Line.new⟩ : Platform).addLine
          y).thrown = none) →
      p.addLines numbers = ⟨⟨p.platformNumber, p.lines ++ numbers.map Line.new⟩, none⟩) ∧
    (∀ i y, numbers[i]? = some y →
      (((⟨st.id, st.name, st.platforms ++ (numbers.take i).map (fun n => ⟨n, []⟩)⟩ :
          RailwayStation T).addPlatform y).thrown = none →
        ((⟨st.id, st.name, st.platforms ++ (numbers.take i).map (fun n => ⟨n, []⟩)⟩ :
          RailwayStation T).addPlatform y).state =
          ⟨st.id, st.name, st.platforms ++ (numbers.take (i + 1)).map (fun n => ⟨n, []⟩)⟩) ∧
      (∀ e, ((⟨st.id, st.name, st.platforms ++ (numbers.take i).map (fun n => ⟨n, []⟩)⟩ :
          RailwayStation T).addPlatform y).thrown = some e →
        ((⟨st.id, st.name, st.platforms ++ (numbers.take i).map (fun n => ⟨n, []⟩)⟩ :
          RailwayStation T).addPlatform y).state =
          ⟨st.id, st.name, st.platforms ++ (numbers.take i).map (fun n => ⟨n, []⟩)⟩)) ∧
    (∀ k x e, numbers[k]? = some x →
      (∀ i < k, ∀ y, numbers[i]? = some y →
        ((⟨st.id, st.name, st.platforms ++ (numbers.take i).map (fun n => ⟨n, []⟩)⟩ :
          RailwayStation T).addPlatform y).thrown = none) →
      ((⟨st.id, st.name, st.platforms ++ (numbers.take k).map (fun n => ⟨n, []⟩)⟩ :
        RailwayStation T).addPlatform x).thrown = some e →
      st.addPlatforms numbers =
        ⟨⟨st.id, st.name, st.platforms ++ (numbers.take k).map (fun n => ⟨n, []⟩)⟩,
          some e⟩) ∧
    ((∀ i y, numbers[i]? = some y →
        ((⟨st.id, st.name, st.platforms ++ (numbers.take i).map (fun n => ⟨n, []⟩)⟩ :
          RailwayStation T).addPlatform y).thrown = none) →
      st.addPlatforms numbers =
        ⟨⟨st.id, st.name, st.platforms ++ numbers.map (fun n => ⟨n, []⟩)⟩, none⟩) := by
  have hemp : numbers.isEmpty = false := by
    cases numbers with
    | nil => exact absurd rfl hne
    | cons a rest => rfl
  have htake : ∀ i y, numbers[i]? = some y → numbers.take (i + 1) = numbers.take i ++ [y] := by
    intro i y hy
    rw [List.take_succ, hy]
    rfl
  refine ⟨?_, ?_, ?_, ?_, ?_, ?_⟩
  · intro i y hy
    constructor
    · intro h
      rw [addLine_thrown_none _ _ h, htake i y hy]
      simp
    · intro e h
      rw [addLine_thrown_some _ _ e h]
  · intro k x e hx hprev hfail
    unfold Platform.addLines
    rw [hemp]
    exact addLinesLoop_fail numbers p k x e hx hprev hfail
  · intro hall
    unfold Platform.addLines
    rw [hemp]
    exact addLinesLoop_ok numbers p hall
  · intro i y hy
    constructor
    · intro h
      rw [addPlatform_thrown_none _ _ h, htake i y hy]
      simp
    · intro e h
      rw [addPlatform_thrown_some _ _ e h]
  · intro k x e hx hprev hfail
    unfold RailwayStation.addPlatforms
    rw [hemp]
    exact addPlatformsLoop_fail numbers st k x e hx hprev hfail
  · intro hall
    unfold RailwayStation.addPlatforms
    rw [hemp]
    exact addPlatformsLoop_ok numbers st hall

/-- C6: for a station whose platform numbers are pairwise distinct and whose line numbers
are pairwise distinct within each platform, `addTrainSchedule(p, l, t, s)` keeps the
station id and name, the platform numbers and the line numbers of every platform; every
line other than line `l` of platform `p` is left exactly as it was; the exception that
escapes is the same in any station with the same platform and line numbers in which the
lines numbered `l` on platforms numbered `p` carry the same schedule, whatever the other
schedules are; and scheduling the same time on two different empty lines of one platform
succeeds both times. -/
theorem addTrainSchedule_no_cross_line_interference {T : Type} (st : RailwayStation T)
    (p l : Int) (t : Time) (s : Bool)
    (hP : (st.platforms.map (fun P : Platform => P.platformNumber)).Nodup)
    (hL : ∀ P ∈ st.platforms, (P.lines.map (fun L : Line => L.lineNumber)).Nodup) :
    ((st.addTrainSchedule p l t s).state.id = st.id ∧
      (st.addTrainSchedule p l t s).state.name = st.name ∧
      (st.addTrainSchedule p l t s).state.platforms.map
          (fun P : Platform => (P.platformNumber, P.lines.map (fun L : Line => L.lineNumber))) =
        st.platforms.map
          (fun P : Platform =>
            (P.platformNumber, P.lines.map (fun L : Line => L.lineNumber)))) ∧
    (∀ (i j : Nat) (P P' : Platform) (L L' : Line), st.platforms[i]? = some P →
      (st.addTrainSchedule p l t s).state.platforms[i]? = some P' →
      P.lines[j]? = some L → P'.lines[j]? = some L' →
      ¬ (P.platformNumber = p ∧ L.lineNumber = l) → L' = L) ∧
    (∀ st2 : RailwayStation T,
      st2.platforms.map
          (fun P : Platform => (P.platformNumber, P.lines.map (fun L : Line => L.lineNumber))) =
        st.platforms.map
          (fun P : Platform =>
            (P.platformNumber, P.lines.map (fun L : Line => L.lineNumber))) →
      (∀ (i j : Nat) (P P2 : Platform) (L L2 : Line), st.platforms[i]? = some P →
        st2.platforms[i]? = some P2 → P.lines[j]? = some L → P2.lines[j]? = some L2 →
        P.platformNumber = p → L.lineNumber = l → L2.schedules = L.schedules) →
      (st2.addTrainSchedule p l t s).thrown = (st.addTrainSchedule p l t s).thrown) ∧
    (∀ P ∈ st.platforms, ∀ L1 ∈ P.lines, ∀ L2 ∈ P.lines,
      L1.lineNumber ≠ L2.lineNumber → L1.schedules = [] → L2.schedules = [] →
      ∀ s2 : Bool,
        (st.addTrainSchedule P.platformNumber L1.lineNumber t s).thrown = none ∧
        ((st.addTrainSchedule P.platformNumber L1.lineNumber t s).state.addTrainSchedule
          P.platformNumber L2.lineNumber t s2).thrown = none) := by
  refine ⟨addTrainSchedule_keeps_numbers st p l t s, ?_, ?_, ?_⟩
  · intro i j P P' L L' h1 h2 h3 h4 h5
    exact addTrainSchedule_other_lines st p l t s i j P P' L L' h1 h2 h3 h4 h5
  · intro st2 hshape hsched
    exact addTrainSchedule_thrown_independent st st2 p l t s hshape hsched
  · intro P hPm L1 h1 L2 h2 hne he1 he2 s2
    exact addTrainSchedule_two_empty_lines st t s s2 hP hL P hPm L1 L2 h1 h2 hne he1 he2

/-- Witness for C6: platform 1 with empty lines 1 and 2, platform 2 with line 3; a
stopping train at 10:00 is accepted on line 1 and then on line 2 of platform 1. -/
theorem addTrainSchedule_no_cross_line_interference_witness :
    (([⟨1, [⟨1, []⟩, ⟨2, []⟩]⟩, ⟨2, [⟨3, []⟩]⟩] : List Platform).map
      (fun P : Platform => P.platformNumber)).Nodup ∧
    (∀ P ∈ ([⟨1, [⟨1, []⟩, ⟨2, []⟩]⟩, ⟨2, [⟨3, []⟩]⟩] : List Platform),
      (P.lines.map (fun L : Line => L.lineNumber)).Nodup) ∧
    ((RailwayStation.mk "S1" "Central"
        [⟨1, [⟨1, []⟩, ⟨2, []⟩]⟩, ⟨2, [⟨3, []⟩]⟩]).addTrainSchedule 1 1 ⟨10, 0⟩ true).thrown =
      none ∧
    (((RailwayStation.mk "S1" "Central"
        [⟨1, [⟨1, []⟩, ⟨2, []⟩]⟩, ⟨2, [⟨3, []⟩]⟩]).addTrainSchedule 1 1 ⟨10, 0⟩
          true).state.addTrainSchedule 1 2 ⟨10, 0⟩ true).thrown = none :=
  ⟨by decide, by decide,
    (addTrainSchedule_no_cross_line_interference
      (RailwayStation.mk "S1" "Central" [⟨1, [⟨1, []⟩, ⟨2, []⟩]⟩, ⟨2, [⟨3, []⟩]⟩])
      1 1 ⟨10, 0⟩ true (by decide) (by decide)).2.2.2
      ⟨1, [⟨1, []⟩, ⟨2, []⟩]⟩ (by decide) ⟨1, []⟩ (by decide) ⟨2, []⟩ (by decide)
      (by decide) rfl rfl true⟩

/-- Witness for C10: on an empty platform, `addLines [1, 2, 2, 3]` throws at index 2 the
duplicate-line exception and leaves lines 1 and 2 in place. -/
theorem addLines_addPlatforms_sequential_witness :
    ([1, 2, 2, 3] : List Int) ≠ [] ∧
    (Platform.mk 1 []).addLines [1, 2, 2, 3] =
      ⟨⟨1, [⟨1, []⟩, ⟨2, []⟩]⟩,
        some (RailwayException "Line already exists on this platform")⟩ :=
  ⟨by decide,
    (@addLines_addPlatforms_sequential String ⟨1, []⟩ ⟨"S1", "Central", []⟩ [1, 2, 2, 3]
      (by decide)).2.1 2 2 (RailwayException "Line already exists on this platform") rfl
      (fun i hi y hy => by
        have hi' : i = 0 ∨ i = 1 := by omega
        rcases hi' with rfl | rfl
        · cases hy; rfl
        · cases hy; rfl)
      rfl⟩

/-! ## Lemmas on lookups after an insertion -/

theorem find_if_val_eq_some_iff {α : Type} (pred : α → Bool) (v : List α) (i : Nat) :
    (find_if pred v).map Fin.val = some i ↔
      ∃ x, v[i]? = some x ∧ pred x = true ∧
        ∀ k < i, ∀ y, v[k]? = some y → pred y = false := by
  constructor
  · intro h
    cases hf : find_if pred v with
    | none => rw [hf] at h; cases h
    | some j =>
      rw [hf] at h
      simp only [Option.map_some', Option.some.injEq] at h
      subst h
      exact find_if_some_first pred v j hf
  · rintro ⟨x, hx, hpx, hfirst⟩
    obtain ⟨h, hf⟩ := find_if_of_first pred v i x hx hpx hfirst
    rw [hf]
    rfl

theorem find_if_val_append_of_false {α : Type} (pred : α → Bool) (v : List α) (x : α)
    (hx : pred x = false) :
    (find_if pred (v ++ [x])).map Fin.val = (find_if pred v).map Fin.val := by
  cases hf : find_if pred v with
  | none =>
    have hnone : find_if pred (v ++ [x]) = none := by
      rw [find_if_eq_none_iff]
      intro y hy
      rcases List.mem_append.mp hy with hy | hy
      · exact (find_if_eq_none_iff pred v).mp hf y hy
      · rw [List.mem_singleton] at hy
        rw [hy]; exact hx
    rw [hnone]
    rfl
  | some j =>
    obtain ⟨y, hy, hpy, hfirst⟩ := find_if_some_first pred v j hf
    rw [Option.map_some', find_if_val_eq_some_iff]
    refine ⟨y, ?_, hpy, ?_⟩
    · rw [List.getElem?_append_left j.isLt]
      exact hy
    · intro k hk z hz
      rw [List.getElem?_append_left (Nat.lt_trans hk j.isLt)] at hz
      exact hfirst k hk z hz

theorem find_if_val_append_of_new {α : Type} (pred : α → Bool) (v : List α) (x : α)
    (hv : ∀ y ∈ v, pred y = false) (hx : pred x = true) :
    (find_if pred (v ++ [x])).map Fin.val = some v.length := by
  rw [find_if_val_eq_some_iff]
  refine ⟨x, by simp, hx, ?_⟩
  intro k hk y hy
  rw [List.getElem?_append_left hk] at hy
  exact hv y (List.getElem?_mem hy)

theorem addLinesLoop_thrown_none (numbers : List Int) :
    ∀ p : Platform, (p.addLinesLoop numbers).thrown = none →
      p.addLinesLoop numbers =
        ⟨⟨p.platformNumber, p.lines ++ numbers.map Line.new⟩, none⟩ := by
  induction numbers with
  | nil => intro p _; simp [Platform.addLinesLoop]
  | cons a rest ih =>
    intro p h
    rw [Platform.addLinesLoop] at h ⊢
    cases hc : (p.addLine a).thrown with
    | some e =>
      rw [addLine_thrown_some p a e hc] at h
      cases h
    | none =>
      rw [addLine_thrown_none p a hc] at h ⊢
      have := ih _ h
      simpa using this

theorem addLines_thrown_none (p : Platform) (numbers : List Int)
    (h : (p.addLines numbers).thrown = none) :
    p.addLines numbers = ⟨⟨p.platformNumber, p.lines ++ numbers.map Line.new⟩, none⟩ := by
  unfold Platform.addLines at h ⊢
  split at h
  · cases h
  · rename_i hne
    rw [if_neg hne]
    exact addLinesLoop_thrown_none numbers p h

/-! ## Lemmas on the identifier invariant -/

theorem set_keeps_keys_and_all {α β : Type} (key : α → β) (Q : α → Prop) (v : List α)
    (i : Fin v.length) (y : α) (hk : key y = key (v.get i)) (hQ : Q y)
    (hnd : (v.map key).Nodup) (hall : ∀ x ∈ v, Q x) :
    ((v.set i y).map key).Nodup ∧ ∀ x ∈ v.set i y, Q x := by
  constructor
  · rw [map_set_of_eq key v i.val (v.get i) y (List.getElem?_eq_getElem i.isLt) hk]
    exact hnd
  · intro x hx
    rcases List.mem_or_eq_of_mem_set hx with h | h
    · exact hall x h
    · rw [h]; exact hQ

theorem callAt_keeps_keys_and_all {α β : Type} (key : α → β) (Q : α → Prop) (v : List α)
    (ptr : Option (Fin v.length)) (e : Exception) (f : α → Outcome α)
    (hf : ∀ x, Q x → Q (f x).state ∧ key (f x).state = key x)
    (hnd : (v.map key).Nodup) (hall : ∀ x ∈ v, Q x) :
    (((callAt v ptr e f).state).map key).Nodup ∧ ∀ x ∈ (callAt v ptr e f).state, Q x := by
  cases ptr with
  | none => exact ⟨hnd, hall⟩
  | some i =>
    have hx := hf (v.get i) (hall _ (List.get_mem v i.val i.isLt))
    exact set_keeps_keys_and_all key Q v i _ hx.2 hx.1 hnd hall

theorem addLine_state (p : Platform) (n : Int) :
    (p.addLine n).state = p ∨
      (0 < n ∧ (∀ L ∈ p.lines, L.lineNumber ≠ n) ∧
        (p.addLine n).state = ⟨p.platformNumber, p.lines ++ [Line.new n]⟩) := by
  unfold Platform.addLine
  by_cases hn : n ≤ 0
  · rw [if_pos hn]; exact Or.inl rfl
  · rw [if_neg hn]
    by_cases hs : (p.findLine n).isSome = true
    · rw [if_pos hs]; exact Or.inl rfl
    · rw [if_neg hs]
      refine Or.inr ⟨by omega, ?_, rfl⟩
      intro L hL hLn
      exact hs ((find_if_isSome_iff _ _).mpr ⟨L, hL, by simpa using hLn⟩)

theorem addLine_WF (p : Platform) (n : Int) (h : p.WF) :
    (p.addLine n).state.WF ∧ (p.addLine n).state.platformNumber = p.platformNumber := by
  rcases addLine_state p n with hs | ⟨hn, hnew, hs⟩
  · rw [hs]; exact ⟨h, rfl⟩
  · rw [hs]
    refine ⟨⟨h.1, ?_, ?_⟩, rfl⟩
    · show ((p.lines ++ [Line.new n]).map (fun L : Line => L.lineNumber)).Nodup
      rw [List.map_append, List.nodup_append]
      refine ⟨h.2.1, List.nodup_singleton _, ?_⟩
      intro a ha hb
      simp only [List.map_cons, List.map_nil, List.mem_singleton] at hb
      obtain ⟨L, hL, hLa⟩ := List.mem_map.mp ha
      exact hnew L hL (hLa.trans hb)
    · intro L hL
      rcases List.mem_append.mp hL with hL | hL
      · exact h.2.2 L hL
      · rw [List.mem_singleton] at hL
        rw [hL]; exact hn

theorem addLinesLoop_WF (numbers : List Int) :
    ∀ p : Platform, p.WF →
      (p.addLinesLoop numbers).state.WF ∧
        (p.addLinesLoop numbers).state.platformNumber = p.platformNumber := by
  induction numbers with
  | nil => intro p h; exact ⟨h, rfl⟩
  | cons a rest ih =>
    intro p h
    have h1 := addLine_WF p a h
    rw [Platform.addLinesLoop]
    cases hc : (p.addLine a).thrown with
    | some e =>
      rw [addLine_thrown_some p a e hc]
      exact ⟨h, rfl⟩
    | none =>
      rw [addLine_thrown_none p a hc] at h1 ⊢
      have h2 := ih _ h1.1
      exact ⟨h2.1, h2.2.trans h1.2⟩

theorem addLines_WF (p : Platform) (numbers : List Int) (h : p.WF) :
    (p.addLines numbers).state.WF ∧
      (p.addLines numbers).state.platformNumber = p.platformNumber := by
  unfold Platform.addLines
  split
  · exact ⟨h, rfl⟩
  · exact addLinesLoop_WF numbers p h

theorem addPlatform_state {T : Type} (st : RailwayStation T) (n : Int) :
    (st.addPlatform n).state = st ∨
      (0 < n ∧ (∀ P ∈ st.platforms, P.platformNumber ≠ n) ∧
        (st.addPlatform n).state = ⟨st.id, st.name, st.platforms ++ [⟨n, []⟩]⟩) := by
  cases hc : (st.addPlatform n).thrown with
  | some e => rw [addPlatform_thrown_some st n e hc]; exact Or.inl rfl
  | none =>
    rw [addPlatform_thrown_none st n hc]
    refine Or.inr ⟨?_, ?_, rfl⟩
    · by_contra hn
      unfold RailwayStation.addPlatform Platform.new at hc
      rw [if_pos (by omega : n ≤ 0)] at hc
      split at hc <;> cases hc
    · intro P hP hPn
      have hs : (st.findPlatform n).isSome = true :=
        (find_if_isSome_iff _ _).mpr ⟨P, hP, by simpa using hPn⟩
      unfold RailwayStation.addPlatform at hc
      rw [if_pos hs] at hc
      cases hc

theorem addPlatform_WF {T : Type} (st : RailwayStation T) (n : Int) (h : st.WF) :
    (st.addPlatform n).state.WF ∧ (st.addPlatform n).state.id = st.id := by
  rcases addPlatform_state st n with hs | ⟨hn, hnew, hs⟩
  · rw [hs]; exact ⟨h, rfl⟩
  · rw [hs]
    refine ⟨⟨?_, ?_⟩, rfl⟩
    · show ((st.platforms ++ [(⟨n, []⟩ : Platform)]).map
        (fun P : Platform => P.platformNumber)).Nodup
      rw [List.map_append, List.nodup_append]
      refine ⟨h.1, List.nodup_singleton _, ?_⟩
      intro a ha hb
      simp only [List.map_cons, List.map_nil, List.mem_singleton] at hb
      obtain ⟨P, hP, hPa⟩ := List.mem_map.mp ha
      exact hnew P hP (hPa.trans hb)
    · intro P hP
      rcases List.mem_append.mp hP with hP | hP
      · exact h.2 P hP
      · rw [List.mem_singleton] at hP
        rw [hP]
        exact ⟨hn, List.nodup_nil, fun L hL => absurd hL (List.not_mem_nil L)⟩

theorem addPlatformsLoop_WF {T : Type} (numbers : List Int) :
    ∀ st : RailwayStation T, st.WF →
      (st.addPlatformsLoop numbers).state.WF ∧
        (st.addPlatformsLoop numbers).state.id = st.id := by
  induction numbers with
  | nil => intro st h; exact ⟨h, rfl⟩
  | cons a rest ih =>
    intro st h
    have h1 := addPlatform_WF st a h
    rw [RailwayStation.addPlatformsLoop]
    cases hc : (st.addPlatform a).thrown with
    | some e =>
      rw [addPlatform_thrown_some st a e hc]
      exact ⟨h, rfl⟩
    | none =>
      rw [addPlatform_thrown_none st a hc] at h1 ⊢
      have h2 := ih _ h1.1
      exact ⟨h2.1, h2.2.trans h1.2⟩

theorem addPlatforms_WF {T : Type} (st : RailwayStation T) (numbers : List Int) (h : st.WF) :
    (st.addPlatforms numbers).state.WF ∧ (st.addPlatforms numbers).state.id = st.id := by
  unfold RailwayStation.addPlatforms
  split
  · exact ⟨h, rfl⟩
  · exact addPlatformsLoop_WF numbers st h

theorem addTrainSchedule_WF {T : Type} (st : RailwayStation T) (p l : Int) (t : Time)
    (s : Bool) (h : st.WF) :
    (st.addTrainSchedule p l t s).state.WF ∧ (st.addTrainSchedule p l t s).state.id = st.id := by
  rcases addTrainSchedule_cases st p l t s with ⟨e, he⟩ | ⟨i, P, j, L, hP, _, _, hL, _, _, hr⟩
  · rw [he]; exact ⟨h, rfl⟩
  · rw [hr]
    obtain ⟨hi, hPi⟩ := List.getElem?_eq_some.mp hP
    have hPm : P ∈ st.platforms := List.getElem?_mem hP
    have hPw := h.2 P hPm
    obtain ⟨hj, hLj⟩ := List.getElem?_eq_some.mp hL
    have hLw : (fun L : Line => 0 < L.lineNumber) (L.addTrain t s).state := by
      show 0 < (L.addTrain t s).state.lineNumber
      rw [addTrain_state_lineNumber]
      exact hPw.2.2 L (List.getElem?_mem hL)
    have hlines := set_keeps_keys_and_all (fun L : Line => L.lineNumber)
      (fun L : Line => 0 < L.lineNumber) P.lines ⟨j, hj⟩ (L.addTrain t s).state
      ((addTrain_state_lineNumber L t s).trans (congrArg Line.lineNumber hLj.symm)) hLw
      hPw.2.1 hPw.2.2
    have hnew : (⟨P.platformNumber, P.lines.set j (L.addTrain t s).state⟩ : Platform).WF :=
      ⟨hPw.1, hlines.1, hlines.2⟩
    have hplat := set_keeps_keys_and_all (fun P : Platform => P.platformNumber)
      Platform.WF st.platforms ⟨i, hi⟩
      ⟨P.platformNumber, P.lines.set j (L.addTrain t s).state⟩
      (congrArg Platform.platformNumber hPi.symm : P.platformNumber = _) hnew h.1 h.2
    exact ⟨⟨hplat.1, hplat.2⟩, rfl⟩

theorem station_call_WF {T : Type} (st : RailwayStation T) (c : StationCall) (h : st.WF) :
    (st.call c).state.WF ∧ (st.call c).state.id = st.id := by
  cases c with
  | addPlatform n => exact addPlatform_WF st n h
  | addPlatforms ns => exact addPlatforms_WF st ns h
  | addLine p n =>
    have := callAt_keeps_keys_and_all (fun P : Platform => P.platformNumber) Platform.WF
      st.platforms (st.findPlatform p) (RailwayException "Platform not found")
      (fun platform => platform.addLine n) (fun P hP => addLine_WF P n hP) h.1 h.2
    exact ⟨⟨this.1, this.2⟩, rfl⟩
  | addLines p ns =>
    have := callAt_keeps_keys_and_all (fun P : Platform => P.platformNumber) Platform.WF
      st.platforms (st.findPlatform p) (RailwayException "Platform not found")
      (fun platform => platform.addLines ns) (fun P hP => addLines_WF P ns hP) h.1 h.2
    exact ⟨⟨this.1, this.2⟩, rfl⟩
  | addTrainSchedule p l t s => exact addTrainSchedule_WF st p l t s h

theorem station_calls_WF {T : Type} (cs : List StationCall) :
    ∀ st : RailwayStation T, st.WF → (st.calls cs).WF := by
  induction cs with
  | nil => intro st h; exact h
  | cons c rest ih =>
    intro st h
    exact ih _ (station_call_WF st c h).1

theorem station_new_WF {T : Type} (id : T) (name : String) : (RailwayStation.new id name).WF :=
  ⟨List.nodup_nil, fun P hP => absurd hP (List.not_mem_nil P)⟩

theorem addStation_WF {T : Type} [DecidableEq T] (sys : RailwaySystem T) (id : T)
    (name : String) (h : sys.WF) : (sys.addStation id name).state.WF := by
  unfold RailwaySystem.addStation
  by_cases hs : (sys.findStation id).isSome = true
  · rw [if_pos hs]; exact h
  · rw [if_neg hs]
    have hnew : ∀ S ∈ sys.stations, S.id ≠ id := by
      intro S hS hSid
      exact hs ((find_if_isSome_iff _ _).mpr ⟨S, hS, by simpa using hSid⟩)
    constructor
    · show ((sys.stations ++ [RailwayStation.new id name]).map
        (fun S : RailwayStation T => S.id)).Nodup
      rw [List.map_append, List.nodup_append]
      refine ⟨h.1, List.nodup_singleton _, ?_⟩
      intro a ha hb
      simp only [List.map_cons, List.map_nil, List.mem_singleton] at hb
      obtain ⟨S, hS, hSa⟩ := List.mem_map.mp ha
      exact hnew S hS (hSa.trans hb)
    · intro S hS
      rcases List.mem_append.mp hS with hS | hS
      · exact h.2 S hS
      · rw [List.mem_singleton] at hS
        rw [hS]
        exact station_new_WF id name

theorem system_call_WF {T : Type} [DecidableEq T] (sys : RailwaySystem T) (c : SystemCall T)
    (h : sys.WF) : (sys.call c).state.WF := by
  cases c with
  | addStation id name => exact addStation_WF sys id name h
  | onStation id c =>
    have := callAt_keeps_keys_and_all (fun S : RailwayStation T => S.id) RailwayStation.WF
      sys.stations (sys.findStation id) (RailwayException "Station not found")
      (fun station => station.call c) (fun S hS => station_call_WF S c hS) h.1 h.2
    exact ⟨this.1, this.2⟩

theorem system_calls_WF {T : Type} [DecidableEq T] (cs : List (SystemCall T)) :
    ∀ sys : RailwaySystem T, sys.WF → (sys.calls cs).WF := by
  induction cs with
  | nil => intro sys h; exact h
  | cons c rest ih =>
    intro sys h
    exact ih _ (system_call_WF sys c h)

/-! ## Empty batches, duplicates and lookups -/

/-- C11: `Platform::addLines` on an empty sequence throws
`RailwayException("No line numbers provided")` and `RailwayStation::addPlatforms` on an
empty sequence throws `RailwayException("No platform numbers provided")`; the platform,
respectively the station, with its collection is exactly as before. -/
theorem addLines_addPlatforms_empty {T : Type} (p : Platform) (st : RailwayStation T) :
    p.addLines [] = ⟨p, some (RailwayException "No line numbers provided")⟩ ∧
    (p.addLines []).state.lines = p.lines ∧
    st.addPlatforms [] = ⟨st, some (RailwayException "No platform numbers provided")⟩ ∧
    (st.addPlatforms []).state.platforms = st.platforms := by
  have hl : p.addLines [] = ⟨p, some (RailwayException "No line numbers provided")⟩ := by
    unfold Platform.addLines
    exact if_pos rfl
  have hp : st.addPlatforms [] =
      ⟨st, some (RailwayException "No platform numbers provided")⟩ := by
    unfold RailwayStation.addPlatforms
    exact if_pos rfl
  rw [hl, hp]
  exact ⟨rfl, rfl, rfl, rfl⟩

/-- C12: a duplicate is rejected and nothing changes. On a platform whose stored line
numbers are positive (the only platforms `addLine` can build), `addLine(n)` with `n`
already present throws `RailwayException("Line already exists on this platform")`;
`addPlatform(m)` with `m` already present throws `RailwayException("Platform already
exists")`; `addStation(id, name)` with `id` already present throws
`RailwayException("Station ID already exists")`; in each case the parent object after the
call equals the one before it, contents of the original entry included. -/
theorem duplicate_rejected_unchanged {T : Type} [DecidableEq T] (p : Platform)
    (st : RailwayStation T) (sys : RailwaySystem T) (n m : Int) (id : T) (name : String)
    (hpos : ∀ L ∈ p.lines, 0 < L.lineNumber) :
    ((∃ L ∈ p.lines, L.lineNumber = n) →
      p.addLine n = ⟨p, some (RailwayException "Line already exists on this platform")⟩) ∧
    ((∃ P ∈ st.platforms, P.platformNumber = m) →
      st.addPlatform m = ⟨st, some (RailwayException "Platform already exists")⟩) ∧
    ((∃ S ∈ sys.stations, S.id = id) →
      sys.addStation id name = ⟨sys, some (RailwayException "Station ID already exists")⟩) := by
  refine ⟨?_, ?_, ?_⟩
  · intro hex
    have hn : ¬ n ≤ 0 := by
      obtain ⟨L, hL, hLn⟩ := hex
      have := hpos L hL
      omega
    have hs : (p.findLine n).isSome = true :=
      (find_if_isSome_iff _ _).mpr (by simpa using hex)
    unfold Platform.addLine
    rw [if_neg hn, if_pos hs]
  · intro hex
    have hs : (st.findPlatform m).isSome = true :=
      (find_if_isSome_iff _ _).mpr (by simpa using hex)
    unfold RailwayStation.addPlatform
    rw [if_pos hs]
  · intro hex
    have hs : (sys.findStation id).isSome = true :=
      (find_if_isSome_iff _ _).mpr (by simpa using hex)
    unfold RailwaySystem.addStation
    rw [if_pos hs]

/-- Witness for C12: platform 1 with lines 1 and 2 (line 1 carrying a 10:00 stopping
train) rejects a second line 1 and is unchanged. -/
theorem duplicate_rejected_unchanged_witness :
    (∀ L ∈ (Platform.mk 1 [⟨1, [⟨⟨10, 0⟩, true⟩]⟩, ⟨2, []⟩]).lines, 0 < L.lineNumber) ∧
    (Platform.mk 1 [⟨1, [⟨⟨10, 0⟩, true⟩]⟩, ⟨2, []⟩]).addLine 1 =
      ⟨⟨1, [⟨1, [⟨⟨10, 0⟩, true⟩]⟩, ⟨2, []⟩]⟩,
        some (RailwayException "Line already exists on this platform")⟩ :=
  ⟨by decide,
    (@duplicate_rejected_unchanged String _ ⟨1, [⟨1, [⟨⟨10, 0⟩, true⟩]⟩, ⟨2, []⟩]⟩
      ⟨"S1", "Central", []⟩ ⟨[]⟩ 1 1 "S1" "Central" (by decide)).1
      ⟨⟨1, [⟨⟨10, 0⟩, true⟩]⟩, by decide, rfl⟩⟩

/-- C14: `addStation(id, name)` throws, and then it is `RailwayException("Station ID
already exists")` with the system unchanged, if and only if a stored station has that id;
otherwise it returns normally with a new station (that id, that name, no platforms)
appended, after which `findStation(id)` points at that new station and `findStation` of
any other id points where it did before, at the same station. `findStation` returns
`nullptr` exactly when no stored station has the id, and otherwise points at the first
station with that id. -/
theorem addStation_findStation {T : Type} [DecidableEq T] (sys : RailwaySystem T) (id : T)
    (name : String) :
    ((sys.addStation id name).thrown ≠ none ↔ ∃ S ∈ sys.stations, S.id = id) ∧
    ((∃ S ∈ sys.stations, S.id = id) →
      sys.addStation id name = ⟨sys, some (RailwayException "Station ID already exists")⟩) ∧
    ((∀ S ∈ sys.stations, S.id ≠ id) →
      sys.addStation id name = ⟨⟨sys.stations ++ [⟨id, name, []⟩]⟩, none⟩ ∧
      ((sys.addStation id name).state.findStation id).map Fin.val =
        some sys.stations.length ∧
      (sys.addStation id name).state.stations[sys.stations.length]? =
        some ⟨id, name, []⟩ ∧
      (∀ id', id' ≠ id →
        ((sys.addStation id name).state.findStation id').map Fin.val =
          (sys.findStation id').map Fin.val ∧
        ∀ i, sys.findStation id' = some i →
          (sys.addStation id name).state.stations[i.val]? = some (sys.stations.get i))) ∧
    (∀ id', sys.findStation id' = none ↔ ∀ S ∈ sys.stations, S.id ≠ id') ∧
    (∀ id' i, sys.findStation id' = some i →
      (sys.stations.get i).id = id' ∧
        ∀ k < i.val, ∀ S, sys.stations[k]? = some S → S.id ≠ id') := by
  have hnone : ∀ id', sys.findStation id' = none ↔ ∀ S ∈ sys.stations, S.id ≠ id' := by
    intro id'
    unfold RailwaySystem.findStation
    rw [find_if_eq_none_iff]
    simp
  have hdup : (∃ S ∈ sys.stations, S.id = id) →
      sys.addStation id name =
        ⟨sys, some (RailwayException "Station ID already exists")⟩ := by
    intro hex
    have hs : (sys.findStation id).isSome = true :=
      (find_if_isSome_iff _ _).mpr (by simpa using hex)
    unfold RailwaySystem.addStation
    rw [if_pos hs]
  have hnew : (∀ S ∈ sys.stations, S.id ≠ id) →
      sys.addStation id name = ⟨⟨sys.stations ++ [⟨id, name, []⟩]⟩, none⟩ := by
    intro hall
    have hs : ¬ (sys.findStation id).isSome = true := by
      rw [(hnone id).mpr hall]
      simp
    unfold RailwaySystem.addStation
    rw [if_neg hs]
    rfl
  refine ⟨?_, hdup, ?_, hnone, ?_⟩
  · constructor
    · intro hthrow
      by_contra hex
      have hall : ∀ S ∈ sys.stations, S.id ≠ id := fun S hS hid => hex ⟨S, hS, hid⟩
      rw [hnew hall] at hthrow
      exact hthrow rfl
    · intro hex
      rw [hdup hex]
      simp
  · intro hall
    rw [hnew hall]
    refine ⟨rfl, ?_, by simp, ?_⟩
    · exact find_if_val_append_of_new _ sys.stations ⟨id, name, []⟩
        (fun S hS => by simpa using hall S hS) (by simp)
    · intro id' hne
      have hfalse : (fun station : RailwayStation T => decide (station.id = id'))
          ⟨id, name, []⟩ = false := by
        simpa using fun h => hne h.symm
      refine ⟨find_if_val_append_of_false _ sys.stations ⟨id, name, []⟩ hfalse, ?_⟩
      intro i _
      show (sys.stations ++ [⟨id, name, []⟩])[i.val]? = some (sys.stations.get i)
      rw [List.getElem?_append_left i.isLt, List.getElem?_eq_getElem i.isLt]
      rfl
  · intro id' i hi
    obtain ⟨S, hS, hpS, hfirst⟩ := find_if_some_first _ sys.stations i hi
    have hget : sys.stations.get i = S := get_of_getElem? _ _ _ hS i.isLt
    rw [hget]
    refine ⟨by simpa using hpS, ?_⟩
    intro k hk S' hS'
    simpa using hfirst k hk S' hS'

/-- C15: `Platform::findLine(n)` points at a line whose number is `n` (the first one) when
some stored line has number `n`, and is `nullptr` otherwise; hence after a successful
`addLines(numbers)` every `k` in `numbers` is found, and a `k` that is neither in
`numbers` nor among the earlier lines is not found. -/
theorem findLine_found_iff_stored (p : Platform) (n : Int) (numbers : List Int) :
    ((∃ L ∈ p.lines, L.lineNumber = n) →
      ∃ i, p.findLine n = some i ∧ (p.lines.get i).lineNumber = n) ∧
    ((∀ L ∈ p.lines, L.lineNumber ≠ n) → p.findLine n = none) ∧
    ((p.addLines numbers).thrown = none →
      (∀ k ∈ numbers, ∃ i, (p.addLines numbers).state.findLine k = some i ∧
        ((p.addLines numbers).state.lines.get i).lineNumber = k) ∧
      (∀ k, k ∉ numbers → (∀ L ∈ p.lines, L.lineNumber ≠ k) →
        (p.addLines numbers).state.findLine k = none)) := by
  have hfound : ∀ (q : Platform) (k : Int), (∃ L ∈ q.lines, L.lineNumber = k) →
      ∃ i, q.findLine k = some i ∧ (q.lines.get i).lineNumber = k := by
    intro q k hex
    cases hf : q.findLine k with
    | none =>
      obtain ⟨L, hL, hLk⟩ := hex
      have := (find_if_eq_none_iff _ _).mp hf L hL
      simp [hLk] at this
    | some i =>
      obtain ⟨L, hL, hpL, _⟩ := find_if_some_first _ q.lines i hf
      have hget : q.lines.get i = L := get_of_getElem? _ _ _ hL i.isLt
      exact ⟨i, rfl, by rw [hget]; simpa using hpL⟩
  have hmissing : ∀ (q : Platform) (k : Int), (∀ L ∈ q.lines, L.lineNumber ≠ k) →
      q.findLine k = none := by
    intro q k hall
    exact (find_if_eq_none_iff _ _).mpr (fun L hL => by simpa using hall L hL)
  refine ⟨hfound p n, hmissing p n, ?_⟩
  intro hok
  rw [addLines_thrown_none p numbers hok]
  constructor
  · intro k hk
    apply hfound
    exact ⟨Line.new k, List.mem_append_right _ (List.mem_map_of_mem _ hk), rfl⟩
  · intro k hk hall
    apply hmissing
    intro L hL
    rcases List.mem_append.mp hL with hL | hL
    · exact hall L hL
    · obtain ⟨x, hx, rfl⟩ := List.mem_map.mp hL
      intro h
      exact hk (h ▸ hx)

/-! ## Reachable states -/

/-- C13: on a station reached from a newly constructed one by any sequence of client calls,
`addPlatform(n)` throws `RailwayException("Platform number must be positive")` when
`n <= 0` (it is the `Platform` constructor that throws), throws
`RailwayException("Platform already exists")` when a platform numbered `n` is stored, and
otherwise returns normally with one new platform, numbered `n` and without lines, appended
at the end. A call that throws leaves the station unchanged. -/
theorem addPlatform_on_reachable_station {T : Type} (id : T) (name : String)
    (cs : List StationCall) (n : Int) :
    (n ≤ 0 →
      Platform.new n = .error (RailwayException "Platform number must be positive") ∧
      ((RailwayStation.new id name).calls cs).addPlatform n =
        ⟨(RailwayStation.new id name).calls cs,
          some (RailwayException "Platform number must be positive")⟩) ∧
    ((∃ P ∈ ((RailwayStation.new id name).calls cs).platforms, P.platformNumber = n) →
      ((RailwayStation.new id name).calls cs).addPlatform n =
        ⟨(RailwayStation.new id name).calls cs,
          some (RailwayException "Platform already exists")⟩) ∧
    (0 < n →
      (∀ P ∈ ((RailwayStation.new id name).calls cs).platforms, P.platformNumber ≠ n) →
      ((RailwayStation.new id name).calls cs).addPlatform n =
        ⟨⟨((RailwayStation.new id name).calls cs).id,
            ((RailwayStation.new id name).calls cs).name,
            ((RailwayStation.new id name).calls cs).platforms ++ [⟨n, []⟩]⟩, none⟩) := by
  have hwf := station_calls_WF cs (RailwayStation.new id name) (station_new_WF id name)
  generalize (RailwayStation.new id name).calls cs = st at hwf ⊢
  have hmiss : (∀ P ∈ st.platforms, P.platformNumber ≠ n) →
      ¬ (st.findPlatform n).isSome = true := by
    intro hall hs
    obtain ⟨P, hP, hPn⟩ := (find_if_isSome_iff _ _).mp hs
    exact hall P hP (by simpa using hPn)
  refine ⟨?_, ?_, ?_⟩
  · intro hn
    have hctor : Platform.new n =
        .error (RailwayException "Platform number must be positive") := by
      unfold Platform.new
      rw [if_pos hn]
    refine ⟨hctor, ?_⟩
    have hall : ∀ P ∈ st.platforms, P.platformNumber ≠ n := by
      intro P hP hPn
      have := (hwf.2 P hP).1
      omega
    unfold RailwayStation.addPlatform
    rw [if_neg (hmiss hall), hctor]
  · intro hex
    have hs : (st.findPlatform n).isSome = true :=
      (find_if_isSome_iff _ _).mpr (by simpa using hex)
    unfold RailwayStation.addPlatform
    rw [if_pos hs]
  · intro hn hall
    have hctor : Platform.new n = .ok ⟨n, []⟩ := by
      unfold Platform.new
      rw [if_neg (by omega)]
    unfold RailwayStation.addPlatform
    rw [if_neg (hmiss hall), hctor]

/-- C16: in every system state reached from the empty system by a sequence of `addStation`,
`addPlatform`, `addPlatforms`, `addLine`, `addLines` and `addTrainSchedule` calls, thrown
exceptions included, station ids are pairwise distinct, the platform numbers of each
station are pairwise distinct and positive, and the line numbers of each platform are
pairwise distinct and positive. -/
theorem reachable_identifier_invariant {T : Type} [DecidableEq T] (cs : List (SystemCall T)) :
    (((RailwaySystem.new : RailwaySystem T).calls cs).stations.map
      (fun S : RailwayStation T => S.id)).Nodup ∧
    ∀ S ∈ ((RailwaySystem.new : RailwaySystem T).calls cs).stations,
      (S.platforms.map (fun P : Platform => P.platformNumber)).Nodup ∧
      (∀ P ∈ S.platforms, 0 < P.platformNumber) ∧
      ∀ P ∈ S.platforms,
        (P.lines.map (fun L : Line => L.lineNumber)).Nodup ∧
        ∀ L ∈ P.lines, 0 < L.lineNumber := by
  have hwf := system_calls_WF cs (RailwaySystem.new : RailwaySystem T)
    ⟨List.nodup_nil, fun S hS => absurd hS (List.not_mem_nil S)⟩
  refine ⟨hwf.1, ?_⟩
  intro S hS
  have hS' := hwf.2 S hS
  exact ⟨hS'.1, fun P hP => (hS'.2 P hP).1, fun P hP => (hS'.2 P hP).2⟩

/-! ## The `Line` constructor -/

/-- C17, as the code has it: constructing `Line(n)` never throws; for every integer `n`,
positive or not, it yields line number `n` and an empty schedule. The requirement
`n > 0` is enforced by `Platform::addLine`, which throws
`RailwayException("Line number must be positive")` for `n <= 0` and stores no line. -/
theorem Line_construct_always_succeeds (n : Int) (p : Platform) :
    Line.construct n = .ok ⟨n, []⟩ ∧
    (Line.new n).lineNumber = n ∧ (Line.new n).schedules = [] ∧
    (n ≤ 0 → p.addLine n = ⟨p, some (RailwayException "Line number must be positive")⟩) := by
  refine ⟨rfl, rfl, rfl, ?_⟩
  intro hn
  unfold Platform.addLine
  rw [if_pos hn]

/-- Counterexample to C17 as stated: `Line(0)` is constructed without any exception. -/
theorem Line_construct_zero_not_rejected :
    (0 : Int) ≤ 0 ∧ Line.construct 0 = .ok ⟨0, []⟩ ∧
      ¬ ∃ e, Line.construct 0 = .error e := by
  refine ⟨le_refl 0, rfl, ?_⟩
  rintro ⟨e, he⟩
  cases he

/-! ## Ordering and rendering of `Time` -/

/-- C18: for valid times, `a < b` holds exactly when
`a.hours*60 + a.minutes < b.hours*60 + b.minutes`; exactly one of `a < b`, `a == b`,
`b < a` holds; and `a == b` holds exactly when `a.getDifference(b) == 0`. -/
theorem Time_lt_eq_trichotomy (a b : Time) (ha : a.valid) (hb : b.valid) :
    (a.lt b = true ↔ a.hours * 60 + a.minutes < b.hours * 60 + b.minutes) ∧
    ((a.lt b = true ∧ a.eq b = false ∧ b.lt a = false) ∨
      (a.lt b = false ∧ a.eq b = true ∧ b.lt a = false) ∨
      (a.lt b = false ∧ a.eq b = false ∧ b.lt a = true)) ∧
    (a.eq b = true ↔ a.getDifference b = 0) ∧
    (a.eq b = true ↔ a = b) := by
  obtain ⟨ah, am⟩ := a
  obtain ⟨bh, bm⟩ := b
  unfold Time.valid at ha hb
  simp only at ha hb
  have hlt : ∀ x y : Time, x.lt y = true ↔
      x.hours * 60 + x.minutes < y.hours * 60 + y.minutes := by
    intro x y
    unfold Time.lt
    exact decide_eq_true_iff
  have hltf : ∀ x y : Time, x.lt y = false ↔
      ¬ x.hours * 60 + x.minutes < y.hours * 60 + y.minutes := by
    intro x y
    rw [← hlt, Bool.not_eq_true]
  have heq : (Time.mk ah am).eq ⟨bh, bm⟩ = true ↔ (ah = bh ∧ am = bm) := by
    unfold Time.eq
    simp
  have heqf : (Time.mk ah am).eq ⟨bh, bm⟩ = false ↔ ¬ (ah = bh ∧ am = bm) := by
    rw [← heq, Bool.not_eq_true]
  refine ⟨hlt _ _, ?_, ?_, ?_⟩
  · rw [hlt, hlt, hltf, hltf, heq, heqf]
    simp only
    omega
  · rw [heq, getDifference_eq_abs, abs_eq_zero]
    simp only
    omega
  · rw [heq]
    simp

/-- Witness for C18: 12:30 and 13:00, the pair the test suite compares. -/
theorem Time_lt_eq_trichotomy_witness :
    Time.valid ⟨12, 30⟩ ∧ Time.valid ⟨13, 0⟩ ∧
    (Time.lt ⟨12, 30⟩ ⟨13, 0⟩ = true ↔ ((12 : Int) * 60 + 30 < 13 * 60 + 0)) :=
  ⟨by decide, by decide, (Time_lt_eq_trichotomy ⟨12, 30⟩ ⟨13, 0⟩ (by decide) (by decide)).1⟩

theorem putInt02_two_digits (n : Int) (h0 : 0 ≤ n) (h1 : n ≤ 59) :
    putInt02 n = String.mk [Nat.digitChar (n.toNat / 10), Nat.digitChar (n.toNat % 10)] := by
  interval_cases n <;> rfl

theorem digitChar_toNat (d : Nat) (h : d < 10) : (Nat.digitChar d).toNat = 48 + d := by
  interval_cases d <;> rfl

theorem toString_eq_digits (t : Time) (ht : t.valid) :
    t.toString =
      String.mk [Nat.digitChar (t.hours.toNat / 10), Nat.digitChar (t.hours.toNat % 10), ':',
        Nat.digitChar (t.minutes.toNat / 10), Nat.digitChar (t.minutes.toNat % 10)] := by
  unfold Time.valid at ht
  unfold Time.toString
  rw [putInt02_two_digits t.hours ht.1 (by omega),
    putInt02_two_digits t.minutes ht.2.2.1 ht.2.2.2]
  rfl

theorem toString_injective (t u : Time) (ht : t.valid) (hu : u.valid)
    (h : u.toString = t.toString) : u = t := by
  rw [toString_eq_digits t ht, toString_eq_digits u hu] at h
  unfold Time.valid at ht hu
  have hl : [Nat.digitChar (u.hours.toNat / 10), Nat.digitChar (u.hours.toNat % 10), (':' : Char),
      Nat.digitChar (u.minutes.toNat / 10), Nat.digitChar (u.minutes.toNat % 10)] =
      [Nat.digitChar (t.hours.toNat / 10), Nat.digitChar (t.hours.toNat % 10), ':',
        Nat.digitChar (t.minutes.toNat / 10), Nat.digitChar (t.minutes.toNat % 10)] :=
    congrArg String.data h
  simp only [List.cons.injEq, and_true, true_and] at hl
  obtain ⟨h1, h2, h3, h4⟩ := hl
  have e1 := congrArg Char.toNat h1
  have e2 := congrArg Char.toNat h2
  have e3 := congrArg Char.toNat h3
  have e4 := congrArg Char.toNat h4
  rw [digitChar_toNat _ (by omega), digitChar_toNat _ (by omega)] at e1 e3
  rw [digitChar_toNat _ (Nat.mod_lt _ (by decide)),
    digitChar_toNat _ (Nat.mod_lt _ (by decide))] at e2 e4
  obtain ⟨th, tm⟩ := t
  obtain ⟨uh, um⟩ := u
  simp only at ht hu e1 e2 e3 e4
  have hh : uh = th := by omega
  have hm : um = tm := by omega
  rw [hh, hm]

/-- C19: for valid `(h, m)`, `Time(h, m)` is constructed and its `toString()` is the five
characters tens digit of `h`, units digit of `h`, `':'`, tens digit of `m`, units digit of
`m`; two valid times with the same rendering are the same time; `(9,5)` renders as
`"09:05"` and `(12,30)` as `"12:30"`. -/
theorem toString_HH_MM (h m : Int) (hh : 0 ≤ h ∧ h ≤ 23) (hm : 0 ≤ m ∧ m ≤ 59) :
    Time.new h m = .ok ⟨h, m⟩ ∧
    (Time.mk h m).toString =
      String.mk [Nat.digitChar (h.toNat / 10), Nat.digitChar (h.toNat % 10), ':',
        Nat.digitChar (m.toNat / 10), Nat.digitChar (m.toNat % 10)] ∧
    (Time.mk h m).toString.length = 5 ∧
    (∀ h' m' : Int, 0 ≤ h' ∧ h' ≤ 23 → 0 ≤ m' ∧ m' ≤ 59 →
      (Time.mk h' m').toString = (Time.mk h m).toString → h' = h ∧ m' = m) ∧
    (Time.mk 9 5).toString = "09:05" ∧ (Time.mk 12 30).toString = "12:30" := by
  have hv : (Time.mk h m).valid := ⟨hh.1, hh.2, hm.1, hm.2⟩
  refine ⟨?_, toString_eq_digits _ hv, ?_, ?_, by decide, by decide⟩
  · unfold Time.new
    rw [if_neg (by omega)]
  · rw [toString_eq_digits _ hv]
    rfl
  · intro h' m' hh' hm' heq
    have := toString_injective ⟨h, m⟩ ⟨h', m'⟩ hv ⟨hh'.1, hh'.2, hm'.1, hm'.2⟩ heq
    simpa using this

/-- Witness for C19: 23:59, the last valid time. -/
theorem toString_HH_MM_witness :
    ((0 : Int) ≤ 23 ∧ (23 : Int) ≤ 23) ∧ ((0 : Int) ≤ 59 ∧ (59 : Int) ≤ 59) ∧
    (Time.mk 23 59).toString = "23:59" :=
  ⟨by decide, by decide, (toString_HH_MM 23 59 (by decide) (by decide)).2.1⟩

/-! ## End-to-end example -/

/-- C20: from the empty system, `addStation("S1", "Central")`, `addPlatform(1)` on S1,
`addLine(1)` on platform 1 and `addTrainSchedule(1, 1, 10:00, stopping)` return normally;
`addTrainSchedule(1, 1, 10:25, through)` throws `TimeConflictException` and changes
nothing; `addTrainSchedule(1, 1, 10:30, stopping)` returns normally; the final system is
the single station (S1, Central) with the single platform 1 with the single line 1 whose
schedule is (10:00, stopping), (10:30, stopping) in that order. -/
theorem end_to_end_example :
    Time.new 10 0 = .ok ⟨10, 0⟩ ∧ Time.new 10 25 = .ok ⟨10, 25⟩ ∧
    Time.new 10 30 = .ok ⟨10, 30⟩ ∧
    (RailwaySystem.new : RailwaySystem String).call (.addStation "S1" "Central") =
      ⟨⟨[⟨"S1", "Central", []⟩]⟩, none⟩ ∧
    (⟨[⟨"S1", "Central", []⟩]⟩ : RailwaySystem String).call
        (.onStation "S1" (.addPlatform 1)) =
      ⟨⟨[⟨"S1", "Central", [⟨1, []⟩]⟩]⟩, none⟩ ∧
    (⟨[⟨"S1", "Central", [⟨1, []⟩]⟩]⟩ : RailwaySystem String).call
        (.onStation "S1" (.addLine 1 1)) =
      ⟨⟨[⟨"S1", "Central", [⟨1, [⟨1, []⟩]⟩]⟩]⟩, none⟩ ∧
    (⟨[⟨"S1", "Central", [⟨1, [⟨1, []⟩]⟩]⟩]⟩ : RailwaySystem String).call
        (.onStation "S1" (.addTrainSchedule 1 1 ⟨10, 0⟩ true)) =
      ⟨⟨[⟨"S1", "Central", [⟨1, [⟨1, [⟨⟨10, 0⟩, true⟩]⟩]⟩]⟩]⟩, none⟩ ∧
    (⟨[⟨"S1", "Central", [⟨1, [⟨1, [⟨⟨10, 0⟩, true⟩]⟩]⟩]⟩]⟩ : RailwaySystem String).call
        (.onStation "S1" (.addTrainSchedule 1 1 ⟨10, 25⟩ false)) =
      ⟨⟨[⟨"S1", "Central", [⟨1, [⟨1, [⟨⟨10, 0⟩, true⟩]⟩]⟩]⟩]⟩,
        some (TimeConflictException "Time slot conflicts with existing schedule")⟩ ∧
    (⟨[⟨"S1", "Central", [⟨1, [⟨1, [⟨⟨10, 0⟩, true⟩]⟩]⟩]⟩]⟩ : RailwaySystem String).call
        (.onStation "S1" (.addTrainSchedule 1 1 ⟨10, 30⟩ true)) =
      ⟨⟨[⟨"S1", "Central", [⟨1, [⟨1, [⟨⟨10, 0⟩, true⟩, ⟨⟨10, 30⟩, true⟩]⟩]⟩]⟩]⟩, none⟩ ∧
    ((RailwaySystem.new : RailwaySystem String).calls
        [.addStation "S1" "Central", .onStation "S1" (.addPlatform 1),
          .onStation "S1" (.addLine 1 1),
          .onStation "S1" (.addTrainSchedule 1 1 ⟨10, 0⟩ true),
          .onStation "S1" (.addTrainSchedule 1 1 ⟨10, 25⟩ false),
          .onStation "S1" (.addTrainSchedule 1 1 ⟨10, 30⟩ true)]).stations =
      [⟨"S1", "Central", [⟨1, [⟨1, [⟨⟨10, 0⟩, true⟩, ⟨⟨10, 30⟩, true⟩]⟩]⟩]⟩] := by
  refine ⟨rfl, rfl, rfl, ?_, ?_, ?_, ?_, ?_, ?_, ?_⟩
  · rfl
  · rfl
  · rfl
  · rfl
  · rfl
  · rfl
  · decide

/-! ## Lemmas on the capacity of a line -/

theorem length_le_of_distinct_keys {α : Type} (es : List α) (key : α → Nat) (N : Nat)
    (hp : es.Pairwise (fun a b => key a ≠ key b)) (hr : ∀ e ∈ es, key e < N) :
    es.length ≤ N := by
  have hnd : (es.map key).Nodup := List.pairwise_map.mpr hp
  have hsub : es.map key ⊆ List.range N := by
    intro k hk
    obtain ⟨e, he, rfl⟩ := List.mem_map.mp hk
    exact List.mem_range.mpr (hr e he)
  have := (List.subperm_of_subset hnd hsub).length_le
  simpa using this

theorem addTrains_mem (calls : List (Time × Bool)) :
    ∀ (l : Line) (e : TrainSchedule), e ∈ (l.addTrains calls).schedules →
      e ∈ l.schedules ∨ ∃ c ∈ calls, e = ⟨c.1, c.2⟩ := by
  induction calls with
  | nil => intro l e he; exact Or.inl he
  | cons c rest ih =>
    intro l e he
    obtain ⟨t, s⟩ := c
    rw [Line.addTrains] at he
    rcases ih _ e he with h | ⟨c', hc', hec'⟩
    · cases hc : l.canAddTrain t s with
      | false =>
        rw [addTrain_of_canAdd_false l t s hc] at h
        exact Or.inl h
      | true =>
        rw [addTrain_of_canAdd_true l t s hc] at h
        rcases List.mem_append.mp h with h | h
        · exact Or.inl h
        · rw [List.mem_singleton] at h
          exact Or.inr ⟨(t, s), List.mem_cons_self _ _, h⟩
    · exact Or.inr ⟨c', List.mem_cons_of_mem _ hc', hec'⟩

theorem addTrains_all_accepted (calls : List (Time × Bool)) :
    ∀ l : Line,
      (l.schedules ++ calls.map (fun c => (⟨c.1, c.2⟩ : TrainSchedule))).Pairwise Separated →
      (l.addTrains calls).schedules =
        l.schedules ++ calls.map (fun c => (⟨c.1, c.2⟩ : TrainSchedule)) := by
  induction calls with
  | nil => intro l _; simp [Line.addTrains]
  | cons c rest ih =>
    intro l hp
    obtain ⟨t, s⟩ := c
    have hcan : l.canAddTrain t s = true := by
      rw [canAddTrain_iff_forall_separated]
      intro e he
      exact (List.pairwise_append.mp hp).2.2 e he ⟨t, s⟩ (by simp)
    rw [Line.addTrains, addTrain_of_canAdd_true l t s hcan]
    have hp' : ((⟨l.lineNumber, l.schedules ++ [⟨t, s⟩]⟩ : Line).schedules ++
        rest.map (fun c => (⟨c.1, c.2⟩ : TrainSchedule))).Pairwise Separated := by
      simpa using hp
    rw [ih _ hp']
    simp

theorem separated_ten {a b : TrainSchedule} (h : Separated a b) :
    10 ≤ |(a.time.hours * 60 + a.time.minutes) - (b.time.hours * 60 + b.time.minutes)| := by
  unfold Separated at h
  cases ha : a.isStoppingTrain with
  | true => exact le_trans (by decide) (h.1 (Or.inl ha))
  | false =>
    cases hb : b.isStoppingTrain with
    | true => exact le_trans (by decide) (h.1 (Or.inr hb))
    | false => exact h.2 ⟨ha, hb⟩

theorem schedules_length_le_144 (es : List TrainSchedule) (hp : es.Pairwise Separated)
    (hv : ∀ e ∈ es, e.time.valid) : es.length ≤ 144 := by
  refine length_le_of_distinct_keys es
    (fun e => ((e.time.hours * 60 + e.time.minutes) / 10).toNat) 144 ?_ ?_
  · refine List.Pairwise.imp_of_mem ?_ hp
    intro a b ha hb hab
    have h10 := separated_ten hab
    have hva := hv a ha
    have hvb := hv b hb
    unfold Time.valid at hva hvb
    rw [le_abs] at h10
    simp only
    omega
  · intro e he
    have hve := hv e he
    unfold Time.valid at hve
    simp only
    omega

theorem schedules_length_le_48 (es : List TrainSchedule) (hp : es.Pairwise Separated)
    (hv : ∀ e ∈ es, e.time.valid) (hs : ∀ e ∈ es, e.isStoppingTrain = true) :
    es.length ≤ 48 := by
  refine length_le_of_distinct_keys es
    (fun e => ((e.time.hours * 60 + e.time.minutes) / 30).toNat) 48 ?_ ?_
  · refine List.Pairwise.imp_of_mem ?_ hp
    intro a b ha hb hab
    have h30 := hab.1 (Or.inl (hs a ha))
    have hva := hv a ha
    have hvb := hv b hb
    unfold Time.valid at hva hvb
    rw [le_abs] at h30
    simp only
    omega
  · intro e he
    have hve := hv e he
    unfold Time.valid at hve
    simp only
    omega

theorem every_ten_minutes_pairwise :
    ((List.range 144).map (fun k =>
      (⟨⟨((k / 6 : Nat) : Int), (((k % 6) * 10 : Nat) : Int)⟩, false⟩ : TrainSchedule))).Pairwise
      Separated := by
  rw [List.pairwise_map]
  refine List.Pairwise.imp ?_ (List.pairwise_lt_range 144)
  intro i j hij
  unfold Separated
  simp only [Bool.false_eq_true, or_self, false_implies, and_self, true_implies, true_and]
  rw [le_abs]
  omega

theorem every_thirty_minutes_pairwise :
    ((List.range 48).map (fun k =>
      (⟨⟨((k / 2 : Nat) : Int), (((k % 2) * 30 : Nat) : Int)⟩, true⟩ : TrainSchedule))).Pairwise
      Separated := by
  rw [List.pairwise_map]
  refine List.Pairwise.imp ?_ (List.pairwise_lt_range 48)
  intro i j hij
  unfold Separated
  simp only [or_self, true_implies, Bool.true_eq_false, and_self, false_implies, and_true]
  rw [le_abs]
  omega

/-! ## Midnight and capacity -/

/-- C21: `getDifference` is the linear minute-of-day distance, between 0 and 1439 on valid
times, with no wrap at midnight: 23:55 and 00:00 are 5 minutes apart on the clock face
but `getDifference` gives 1435, so on a newly constructed line trains of any kinds at
23:55 and at 00:00 are both accepted, in either order. -/
theorem getDifference_no_midnight_wrap (n : Int) (s s' : Bool) :
    (∀ a b : Time, a.valid → b.valid →
      0 ≤ a.getDifference b ∧ a.getDifference b ≤ 1439) ∧
    Time.new 23 55 = .ok ⟨23, 55⟩ ∧ Time.new 0 0 = .ok ⟨0, 0⟩ ∧
    Time.getDifference ⟨23, 55⟩ ⟨0, 0⟩ = 1435 ∧
    Time.getDifference ⟨0, 0⟩ ⟨23, 55⟩ = 1435 ∧
    min (Time.getDifference ⟨23, 55⟩ ⟨0, 0⟩) (1440 - Time.getDifference ⟨23, 55⟩ ⟨0, 0⟩) = 5 ∧
    (Line.new n).addTrain ⟨23, 55⟩ s = ⟨⟨n, [⟨⟨23, 55⟩, s⟩]⟩, none⟩ ∧
    (Line.mk n [⟨⟨23, 55⟩, s⟩]).addTrain ⟨0, 0⟩ s' =
      ⟨⟨n, [⟨⟨23, 55⟩, s⟩, ⟨⟨0, 0⟩, s'⟩]⟩, none⟩ ∧
    (Line.new n).addTrain ⟨0, 0⟩ s = ⟨⟨n, [⟨⟨0, 0⟩, s⟩]⟩, none⟩ ∧
    (Line.mk n [⟨⟨0, 0⟩, s⟩]).addTrain ⟨23, 55⟩ s' =
      ⟨⟨n, [⟨⟨0, 0⟩, s⟩, ⟨⟨23, 55⟩, s'⟩]⟩, none⟩ := by
  refine ⟨?_, rfl, rfl, by decide, by decide, by decide, rfl, ?_, rfl, ?_⟩
  · intro a b ha hb
    unfold Time.valid at ha hb
    rw [getDifference_eq_abs]
    refine ⟨abs_nonneg _, ?_⟩
    rw [abs_le]
    omega
  · cases s <;> cases s' <;> rfl
  · cases s <;> cases s' <;> rfl

/-- C22: a line built from a newly constructed one by any sequence of `addTrain` calls with
valid times holds at most 144 entries, and at most 48 when all its entries are stopping
trains. Both bounds are reached: through trains every 10 minutes from 00:00 to 23:50 give
144 entries, stopping trains every 30 minutes from 00:00 to 23:30 give 48. -/
theorem addTrains_capacity (n : Int) (calls : List (Time × Bool))
    (hv : ∀ c ∈ calls, c.1.valid) :
    ((Line.new n).addTrains calls).schedules.length ≤ 144 ∧
    ((∀ e ∈ ((Line.new n).addTrains calls).schedules, e.isStoppingTrain = true) →
      ((Line.new n).addTrains calls).schedules.length ≤ 48) ∧
    ((∀ c ∈ (List.range 144).map (fun k =>
          ((⟨((k / 6 : Nat) : Int), (((k % 6) * 10 : Nat) : Int)⟩ : Time), false)),
        c.1.valid) ∧
      ((Line.new n).addTrains ((List.range 144).map (fun k =>
          ((⟨((k / 6 : Nat) : Int), (((k % 6) * 10 : Nat) : Int)⟩ : Time),
            false)))).schedules.length = 144) ∧
    ((∀ c ∈ (List.range 48).map (fun k =>
          ((⟨((k / 2 : Nat) : Int), (((k % 2) * 30 : Nat) : Int)⟩ : Time), true)),
        c.1.valid) ∧
      (∀ e ∈ ((Line.new n).addTrains ((List.range 48).map (fun k =>
          ((⟨((k / 2 : Nat) : Int), (((k % 2) * 30 : Nat) : Int)⟩ : Time),
            true)))).schedules, e.isStoppingTrain = true) ∧
      ((Line.new n).addTrains ((List.range 48).map (fun k =>
          ((⟨((k / 2 : Nat) : Int), (((k % 2) * 30 : Nat) : Int)⟩ : Time),
            true)))).schedules.length = 48) := by
  have hp := addTrains_pairwise calls (Line.new n) List.Pairwise.nil
  have hvalid : ∀ e ∈ ((Line.new n).addTrains calls).schedules, e.time.valid := by
    intro e he
    rcases addTrains_mem calls (Line.new n) e he with h | ⟨c, hc, hec⟩
    · exact absurd h (List.not_mem_nil e)
    · rw [hec]
      exact hv c hc
  have h144 : ((Line.new n).addTrains ((List.range 144).map (fun k =>
      ((⟨((k / 6 : Nat) : Int), (((k % 6) * 10 : Nat) : Int)⟩ : Time), false)))).schedules =
      (List.range 144).map (fun k =>
        (⟨⟨((k / 6 : Nat) : Int), (((k % 6) * 10 : Nat) : Int)⟩, false⟩ : TrainSchedule)) := by
    rw [addTrains_all_accepted]
    · simp [Line.new, List.map_map, Function.comp_def]
    · simpa [Line.new, List.map_map, Function.comp_def] using every_ten_minutes_pairwise
  have h48 : ((Line.new n).addTrains ((List.range 48).map (fun k =>
      ((⟨((k / 2 : Nat) : Int), (((k % 2) * 30 : Nat) : Int)⟩ : Time), true)))).schedules =
      (List.range 48).map (fun k =>
        (⟨⟨((k / 2 : Nat) : Int), (((k % 2) * 30 : Nat) : Int)⟩, true⟩ : TrainSchedule)) := by
    rw [addTrains_all_accepted]
    · simp [Line.new, List.map_map, Function.comp_def]
    · simpa [Line.new, List.map_map, Function.comp_def] using every_thirty_minutes_pairwise
  refine ⟨schedules_length_le_144 _ hp hvalid,
    fun hs => schedules_length_le_48 _ hp hvalid hs, ⟨?_, ?_⟩, ⟨?_, ?_, ?_⟩⟩
  · intro c hc
    obtain ⟨k, hk, rfl⟩ := List.mem_map.mp hc
    have hk' := List.mem_range.mp hk
    unfold Time.valid
    simp only
    omega
  · rw [h144]
    simp
  · intro c hc
    obtain ⟨k, hk, rfl⟩ := List.mem_map.mp hc
    have hk' := List.mem_range.mp hk
    unfold Time.valid
    simp only
    omega
  · rw [h48]
    intro e he
    obtain ⟨k, _, rfl⟩ := List.mem_map.mp he
    rfl
  · rw [h48]
    simp

/-- Witness for C22: the three calls 10:00 stopping, 10:25 through, 10:30 stopping have
valid times, and the line they leave is within the bound. -/
theorem addTrains_capacity_witness :
    (∀ c ∈ ([(⟨10, 0⟩, true), (⟨10, 25⟩, false), (⟨10, 30⟩, true)] : List (Time × Bool)),
      c.1.valid) ∧
    ((Line.new 1).addTrains
      [(⟨10, 0⟩, true), (⟨10, 25⟩, false), (⟨10, 30⟩, true)]).schedules.length ≤ 144 :=
  ⟨by decide,
    (addTrains_capacity 1 [(⟨10, 0⟩, true), (⟨10, 25⟩, false), (⟨10, 30⟩, true)]
      (by decide)).1⟩

end Railway
